import Mathlib

/-!
# Verification of the cross-platform process-enumeration subsystem of `jout`

Shallow embedding of the `ps` collectors (`cmd/ps/ps_linux.go`,
`cmd/ps/ps_windows.go`, the Darwin collector and the shared record type)
together with the Go standard-library string/number primitives they use,
and proofs settling the frozen claims about them.

Machine integers are modelled as `Int`/`Nat` with explicit clamping or
wrap-around where Go's fixed-width semantics matter.  Floating-point CPU
second fields (`cpu_user_seconds`, `cpu_system_seconds`) are outside the
model: no claim mentions them, and IEEE-754 arithmetic is not faithfully
representable here.
-/

namespace Jout

/-! ## Go primitives: characters and whitespace -/

/-- `unicode.IsSpace` restricted to the characters that can actually occur in
the inputs handled here (ASCII whitespace plus NEL and NBSP, the Latin-1
cases Go also recognises). -/
def goIsSpace (c : Char) : Bool :=
  c = ' ' ∨ c = '\t' ∨ c = '\n' ∨ c = '\r' ∨
    c = (Char.ofNat 11) ∨ c = (Char.ofNat 12) ∨ c = (Char.ofNat 0x85) ∨ c = (Char.ofNat 0xA0)

/-- ASCII decimal digit test, as used by `'0' <= c && c <= '9'` checks and by
`strconv` digit scanning. -/
def isDigitChar (c : Char) : Bool :=
  48 ≤ c.toNat ∧ c.toNat ≤ 57

/-- `strings.TrimSpace`: drop leading and trailing whitespace. -/
def goTrimSpace (cs : List Char) : List Char :=
  ((cs.dropWhile goIsSpace).reverse.dropWhile goIsSpace).reverse

/-- `strings.Fields`: split around runs of whitespace, no empty fields. -/
def goFields (cs : List Char) : List (List Char) :=
  (cs.splitOnP goIsSpace).filter (fun f => !f.isEmpty)

/-- `strings.SplitN(s, sep, n)` for a single-character separator and `n > 0`:
at most `n` pieces, the last piece holds the unsplit remainder. -/
def goSplitNChar (sep : Char) : Nat → List Char → List (List Char)
  | 0, _ => []
  | 1, cs => [cs]
  | n + 2, cs =>
    match cs.findIdx? (fun c => c = sep) with
    | none => [cs]
    | some i =>
      (cs.take i) :: goSplitNChar sep (n + 1) (cs.drop (i + 1))

/-- `strings.Split(s, sep)` for a single-character separator (unlimited
pieces, empty pieces kept, `[""]` for the empty string). -/
def goSplitChar (sep : Char) : List Char → List (List Char)
  | [] => [[]]
  | c :: rest =>
    let r := goSplitChar sep rest
    if c = sep then [] :: r
    else
      match r with
      | h :: t => (c :: h) :: t
      | [] => [[c]]

/-! ## Go primitives: `strconv` -/

def int64MaxI : Int := 9223372036854775807
def int64MinI : Int := -9223372036854775808
def uint64MaxN : Nat := 18446744073709551615

/-- Decimal value of a digit list (most significant first). -/
def digitsVal (cs : List Char) : Nat :=
  cs.foldl (fun a c => a * 10 + (c.toNat - 48)) 0

/-- `strconv.ParseInt(s, 10, 64)` when the caller checks `err == nil`: `some`
exactly on a well-formed in-range decimal integer. -/
def goParseInt64Ok (cs : List Char) : Option Int :=
  let core : Bool → List Char → Option Int := fun neg digs =>
    if digs ≠ [] ∧ digs.all isDigitChar then
      let v : Int := (digitsVal digs : Nat)
      let v := if neg then -v else v
      if int64MinI ≤ v ∧ v ≤ int64MaxI then some v else none
    else none
  match cs with
  | [] => none
  | c :: rest =>
    if c = '-' then core true rest
    else if c = '+' then core false rest
    else core false (c :: rest)

/-- `strconv.ParseInt(s, 10, 64)` when the caller discards the error
(`v, _ := ...`): 0 on a syntax error, the clamped extreme on a range
error, the value otherwise. -/
def goParseInt64 (cs : List Char) : Int :=
  let core : Bool → List Char → Int := fun neg digs =>
    if digs ≠ [] ∧ digs.all isDigitChar then
      let v : Int := (digitsVal digs : Nat)
      let v := if neg then -v else v
      if v < int64MinI then int64MinI else if int64MaxI < v then int64MaxI else v
    else 0
  match cs with
  | [] => 0
  | c :: rest =>
    if c = '-' then core true rest
    else if c = '+' then core false rest
    else core false (c :: rest)

/-- `strconv.ParseUint(s, 10, 64)` with the error discarded: no sign prefix is
permitted; 0 on a syntax error, `MaxUint64` on a range error. -/
def goParseUint64 (cs : List Char) : Nat :=
  if cs ≠ [] ∧ cs.all isDigitChar then min (digitsVal cs) uint64MaxN else 0

/-- `strconv.ParseUint(s, 10, 32)` with the error discarded (used for
uid/gid): 0 on a syntax error, `MaxUint32` on a range error. -/
def goParseUint32 (cs : List Char) : Nat :=
  if cs ≠ [] ∧ cs.all isDigitChar then min (digitsVal cs) 4294967295 else 0

/-- `strconv.Atoi` with the error checked (`err != nil` rejects both syntax
and range errors); on 64-bit platforms `int` is `int64`. -/
def goAtoiOk (cs : List Char) : Option Int :=
  goParseInt64Ok cs

/-- Two's-complement wrap-around of an `int64` computation. -/
def wrap64 (x : Int) : Int :=
  (x + 2 ^ 63) % 2 ^ 64 - 2 ^ 63

/-! ## Go `time` package: proleptic-Gregorian calendar arithmetic -/

/-- Days since 1970-01-01 of the proleptic-Gregorian date `(y, m, d)`
(`m ∈ [1,12]`; `d` enters linearly, so out-of-range days offset the date
exactly as Go's `time.Date` does). -/
def daysFromCivil (y m d : Int) : Int :=
  let yy := if m ≤ 2 then y - 1 else y
  let era := yy.fdiv 400
  let yoe := yy - era * 400
  let mp := (m + 9).emod 12
  let doy := (153 * mp + 2).fdiv 5 + d - 1
  let doe := yoe * 365 + yoe.fdiv 4 - yoe.fdiv 100 + doy
  era * 146097 + doe - 719468

/-- Inverse of `daysFromCivil`: civil date of a day number. -/
def civilFromDays (z0 : Int) : Int × Int × Int :=
  let z := z0 + 719468
  let era := z.fdiv 146097
  let doe := z - era * 146097
  let yoe := (doe - doe.fdiv 1460 + doe.fdiv 36524 - doe.fdiv 146096).fdiv 365
  let y := yoe + era * 400
  let doy := doe - (365 * yoe + yoe.fdiv 4 - yoe.fdiv 100)
  let mp := (5 * doy + 2).fdiv 153
  let d := doy - (153 * mp + 2).fdiv 5 + 1
  let m := mp + (if mp < 10 then 3 else -9)
  (y + (if m ≤ 2 then 1 else 0), m, d)

/-- Wall-clock seconds of `time.Date`'s argument tuple after Go's month
normalization, counted from the Unix epoch as if the wall clock were UTC. -/
def goWallSec (y mo d h mi se : Int) : Int :=
  let m0 := mo - 1
  let yn := y + m0.fdiv 12
  let mn := m0.emod 12 + 1
  daysFromCivil yn mn d * 86400 + h * 3600 + mi * 60 + se

/-- `time.Date(y, mo, d, h, mi, se, usec*1000, time.FixedZone("", zoneOffEastSec))`
converted to UTC, as microseconds since the Unix epoch: the instant is the
wall-clock reading minus the zone's offset east of UTC. -/
def goDateUTCMicro (y mo d h mi se usec zoneOffEastSec : Int) : Int :=
  (goWallSec y mo d h mi se - zoneOffEastSec) * 1000000 + usec

/-- Left zero-pad of a number to two decimal digits, for RFC 3339 rendering. -/
def pad2Str (n : Int) : String :=
  if n < 10 then "0" ++ n.repr else n.repr

/-- Left zero-pad of a number to four decimal digits. -/
def pad4Str (n : Int) : String :=
  if n < 10 then "000" ++ n.repr
  else if n < 100 then "00" ++ n.repr
  else if n < 1000 then "0" ++ n.repr
  else n.repr

/-- `t.UTC().Format(time.RFC3339)` for a non-zero `t` given as whole epoch
seconds (all starts produced by the collectors have zero sub-second part). -/
def rfc3339UTC (sec : Int) : String :=
  let days := sec.fdiv 86400
  let rem := sec.emod 86400
  let ymd := civilFromDays days
  pad4Str ymd.1 ++ "-" ++ pad2Str ymd.2.1 ++ "-" ++ pad2Str ymd.2.2 ++ "T" ++
    pad2Str (rem.fdiv 3600) ++ ":" ++ pad2Str ((rem.fdiv 60).emod 60) ++ ":" ++
    pad2Str (rem.emod 60) ++ "Z"

/-! ## Windows collector: DMTF CIM date-time parsing (`ps_windows.go`) -/

/-- The fractional-seconds padding loop of `parseCIMDateTime`:
`for l := len(strconv.Itoa(usec)); l < 6; l++ { usec *= 10 }`. -/
def goPadUsec (u : Nat) : Nat :=
  if (Nat.repr u).length < 6 then u * 10 ^ (6 - (Nat.repr u).length) else u

/-- `parseCIMDateTime` from `ps_windows.go`: result is the parsed instant in
microseconds since the Unix epoch (`none` for the `ok=false` outcomes). -/
def parseCIMDateTime (s : String) : Option Int :=
  let cs := goTrimSpace s.data
  if cs.isEmpty then none else
  let cs := cs.filter (fun c => decide (c ≠ 'T'))
  if cs.length < 14 then none else
  let y := goParseInt64 (cs.take 4)
  let mo := goParseInt64 ((cs.drop 4).take 2)
  let dd := goParseInt64 ((cs.drop 6).take 2)
  let h := goParseInt64 ((cs.drop 8).take 2)
  let mi := goParseInt64 ((cs.drop 10).take 2)
  let se := goParseInt64 ((cs.drop 12).take 2)
  let rem := cs.drop 14
  let fr :=
    if rem.head? = some '.' then
      let r := rem.drop 1
      let digs := r.takeWhile isDigitChar
      (goPadUsec (digitsVal (digs.take 6)), r.drop digs.length)
    else (0, rem)
  let usec : Int := (fr.1 : Nat)
  let rem2 := fr.2
  let offsetMin : Int :=
    if 4 ≤ rem2.length ∧ (rem2.head? = some '+' ∨ rem2.head? = some '-') then
      match goAtoiOk ((rem2.drop 1).take 3) with
      | some v => (if rem2.head? = some '-' then -1 else 1) * v
      | none => 0
    else 0
  some (goDateUTCMicro y mo dd h mi se usec (-(offsetMin * 60)))

/-- Modelled from the spec: the UTC instant a DMTF compact date-time with
local fields `(y, mo, d, h, mi, se)`, `usec` microseconds and a signed offset
of `offMin` minutes from UTC denotes — the instant constructed in that offset
and converted to UTC, i.e. the local wall time minus the offset. -/
def dmtfInstantMicro (y mo d h mi se usec offMin : Int) : Int :=
  (goWallSec y mo d h mi se - offMin * 60) * 1000000 + usec

/-- What the code actually computes for an explicit-offset value: the local
wall time *plus* the stated offset (the zone is built with the offset sign
inverted). -/
def codeCIMInstantMicro (y mo d h mi se usec offMin : Int) : Int :=
  (goWallSec y mo d h mi se + offMin * 60) * 1000000 + usec

/-- Decimal digit character of `n % 10`. -/
def dchar (n : Nat) : Char := Nat.digitChar (n % 10)

/-- A canonical DMTF compact date-time string with full 14-digit prefix,
6-digit fractional part and signed 3-digit offset, built from numeric
components (each rendered zero-padded to its field width). -/
def mkCIM (y mo d h mi se frac off : Nat) (neg : Bool) : String :=
  ⟨[dchar (y / 1000), dchar (y / 100), dchar (y / 10), dchar y,
    dchar (mo / 10), dchar mo, dchar (d / 10), dchar d,
    dchar (h / 10), dchar h, dchar (mi / 10), dchar mi,
    dchar (se / 10), dchar se, '.',
    dchar (frac / 100000), dchar (frac / 10000), dchar (frac / 1000),
    dchar (frac / 100), dchar (frac / 10), dchar frac,
    if neg then '-' else '+',
    dchar (off / 100), dchar (off / 10), dchar off]⟩

/-- The signed offset in minutes encoded by `mkCIM`'s sign flag and magnitude. -/
def cimSigned (neg : Bool) (off : Nat) : Int :=
  if neg then -(off : Int) else (off : Nat)

/-! ## Linux collector: small parsers (`ps_linux.go`) -/

/-- `parseKB` from `ps_linux.go`: strip the trailing unit suffix after the
first space and parse the leading number (errors discarded). -/
def parseKB (s : String) : Int :=
  let v := goTrimSpace s.data
  if v.isEmpty then 0
  else
    let v := match v.findIdx? (fun c => c = ' ') with
      | some i => goTrimSpace (v.take i)
      | none => v
    goParseInt64 v

/-- `parseFirstUint` from `ps_linux.go`: first tab/space-separated token of a
possibly multi-valued line, parsed as a 32-bit unsigned integer. -/
def parseFirstUint (s : String) : Nat :=
  let v := goTrimSpace s.data
  if v.isEmpty then 0
  else
    let v := match v.findIdx? (fun c => c = '\t' ∨ c = ' ') with
      | some i => v.take i
      | none => v
    goParseUint32 v

/-- `lookupUserName` from `ps_linux.go`, with the system identity database
abstracted as a partial map from numeric id to name. -/
def lookupUserName (userDB : Nat → Option String) (uid : Nat) : String :=
  match userDB uid with
  | some name => name
  | none => Nat.repr uid

/-- `lookupGroupName` from `ps_linux.go`. -/
def lookupGroupName (groupDB : Nat → Option String) (gid : Nat) : String :=
  match groupDB gid with
  | some name => name
  | none => Nat.repr gid

/-- `normalizeState` from `ps_linux.go`: first character of the trimmed state
string (the `switch` is the identity in both arms). -/
def normalizeState (s : String) : String :=
  let cs := goTrimSpace s.data
  if cs.isEmpty then "" else ⟨cs.take 1⟩

/-! ## Darwin collector: duration grammar (`ps` etime/time fields) -/

/-- `firstStateRune` from the Darwin collector: first character of the
trimmed STAT string (the `switch` is the identity in both arms). -/
def firstStateRune (state : String) : String :=
  let cs := goTrimSpace state.data
  if cs.isEmpty then "" else ⟨cs.take 1⟩

/-- `parseElapsedToSeconds` from the Darwin collector: `[[DD-]HH:]MM:SS`.
The hour and day components are zeroed on any parse error; the minute and
second components keep `ParseInt`'s discarded-error value (0 on a syntax
error, the clamped int64 extreme on a range error).  The total is computed
in `int64` arithmetic, hence the wrap-around. -/
def parseElapsedToSeconds (s : String) : Int :=
  let cs := goTrimSpace s.data
  if cs.isEmpty then 0
  else
    let dayRest :=
      match cs.findIdx? (fun c => c = '-') with
      | some i => ((goParseInt64Ok (cs.take i)).getD 0, cs.drop (i + 1))
      | none => (0, cs)
    let days := dayRest.1
    match goSplitChar ':' dayRest.2 with
    | [p0, p1] => wrap64 (days * 86400 + goParseInt64 p0 * 60 + goParseInt64 p1)
    | [p0, p1, p2] =>
        wrap64 (days * 86400 + (goParseInt64Ok p0).getD 0 * 3600 +
          goParseInt64 p1 * 60 + goParseInt64 p2)
    | _ => 0

/-! ## `encoding/json`: the fragment of Go's decoder used by the Windows
collector (`json.NewDecoder(...).Decode(&raw)` with `UseNumber()`: one value
is read from the stream, trailing data is ignored, numbers stay as their
raw decimal tokens).  `\u` escapes are decoded per code unit without
surrogate-pair combination — no claim exercises that corner. -/

inductive JValue where
  | null
  | jbool (b : Bool)
  | num (raw : String)
  | str (s : String)
  | arr (elems : List JValue)
  | obj (fields : List (String × JValue))

def jIsWS (c : Char) : Bool :=
  c = ' ' ∨ c = '\t' ∨ c = '\n' ∨ c = '\r'

def jSkipWS (cs : List Char) : List Char :=
  cs.dropWhile jIsWS

def hexDigitVal (c : Char) : Option Nat :=
  if isDigitChar c then some (c.toNat - 48)
  else if 97 ≤ c.toNat ∧ c.toNat ≤ 102 then some (c.toNat - 87)
  else if 65 ≤ c.toNat ∧ c.toNat ≤ 70 then some (c.toNat - 55)
  else none

/-- Body of a JSON string literal, after the opening quote: returns the
decoded characters and the input after the closing quote. -/
def jParseStringBody : List Char → Option (List Char × List Char)
  | [] => none
  | '"' :: rest => some ([], rest)
  | '\\' :: esc =>
    match esc with
    | [] => none
    | 'u' :: a :: b :: c :: d :: rest =>
      match hexDigitVal a, hexDigitVal b, hexDigitVal c, hexDigitVal d with
      | some va, some vb, some vc, some vd =>
        let n := ((va * 16 + vb) * 16 + vc) * 16 + vd
        let ch := if h : n.isValidChar then Char.ofNatAux n h else Char.ofNat 0xFFFD
        (jParseStringBody rest).map (fun r => (ch :: r.1, r.2))
      | _, _, _, _ => none
    | e :: rest =>
      let ch : Option Char :=
        if e = '"' then some '"' else if e = '\\' then some '\\'
        else if e = '/' then some '/' else if e = 'b' then some (Char.ofNat 8)
        else if e = 'f' then some (Char.ofNat 12) else if e = 'n' then some '\n'
        else if e = 'r' then some '\r' else if e = 't' then some '\t'
        else none
      match ch with
      | some c => (jParseStringBody rest).map (fun r => (c :: r.1, r.2))
      | none => none
  | c :: rest =>
    if c.toNat < 32 then none
    else (jParseStringBody rest).map (fun r => (c :: r.1, r.2))

/-- A JSON number token (`-?(0|[1-9][0-9]*)(\.[0-9]+)?([eE][+-]?[0-9]+)?`):
returns the raw token and the rest of the input. -/
def jParseNumber (cs : List Char) : Option (List Char × List Char) :=
  let sign := if cs.head? = some '-' then ['-'] else []
  let cs1 := cs.drop sign.length
  let intPart := cs1.takeWhile isDigitChar
  if intPart.isEmpty then none
  else if intPart.head? = some '0' ∧ 1 < intPart.length then none
  else
    let cs2 := cs1.drop intPart.length
    let fr :=
      if cs2.head? = some '.' then
        let ds := (cs2.drop 1).takeWhile isDigitChar
        if ds.isEmpty then none else some ('.' :: ds, cs2.drop (1 + ds.length))
      else some ([], cs2)
    match fr with
    | none => none
    | some (fracTok, cs3) =>
      let ex :=
        if cs3.head? = some 'e' ∨ cs3.head? = some 'E' then
          let s2 := if (cs3.drop 1).head? = some '+' ∨ (cs3.drop 1).head? = some '-' then
            (cs3.take 2).drop 1 else []
          let ds := (cs3.drop (1 + s2.length)).takeWhile isDigitChar
          if ds.isEmpty then none
          else some ((cs3.take 1) ++ s2 ++ ds, cs3.drop (1 + s2.length + ds.length))
        else some ([], cs3)
      match ex with
      | none => none
      | some (expTok, cs4) => some (sign ++ intPart ++ fracTok ++ expTok, cs4)

/-- Intermediate results of the JSON parser: a value, the elements of an
array being read, or the members of an object being read. -/
inductive JOut where
  | val (v : JValue)
  | elems (es : List JValue)
  | fields (fs : List (String × JValue))

/-- The parser's five states: a value; the inside of `[...]` right after the
bracket; the element/comma loop; the inside of `{...}`; the member loop. -/
inductive JMode where
  | value
  | arrBody
  | arrLoop
  | objBody
  | objLoop

/-- The JSON grammar, one structurally-recursive function over fuel (Go's
decoder has a nesting-depth limit playing the same role; the fuel passed by
`goDecodeJSON` cannot run out on inputs whose nesting is bounded by their
length). -/
def jParseCore : Nat → JMode → List Char → Except String (JOut × List Char)
  | 0, _, _ => .error ("recursion limit")
  | fuel + 1, .value, cs =>
    match jSkipWS cs with
    | [] => .error ("unexpected end of JSON input")
    | '{' :: rest =>
      (match jParseCore fuel .objBody rest with
       | .ok (.fields fs, r) => .ok (.val (.obj fs), r)
       | .ok (_, _) => .error ("internal: object body")
       | .error e => .error e)
    | '[' :: rest =>
      (match jParseCore fuel .arrBody rest with
       | .ok (.elems es, r) => .ok (.val (.arr es), r)
       | .ok (_, _) => .error ("internal: array body")
       | .error e => .error e)
    | '"' :: rest =>
      (match jParseStringBody rest with
       | some (sv, rest2) => .ok (.val (.str ⟨sv⟩), rest2)
       | none => .error ("invalid string literal"))
    | 'n' :: 'u' :: 'l' :: 'l' :: rest => .ok (.val .null, rest)
    | 't' :: 'r' :: 'u' :: 'e' :: rest => .ok (.val (.jbool true), rest)
    | 'f' :: 'a' :: 'l' :: 's' :: 'e' :: rest => .ok (.val (.jbool false), rest)
    | c :: rest =>
      if c = '-' ∨ isDigitChar c then
        match jParseNumber (c :: rest) with
        | some (tok, rest2) => .ok (.val (.num ⟨tok⟩), rest2)
        | none => .error ("invalid number literal")
      else .error ("invalid character looking for beginning of value")
  | fuel + 1, .arrBody, cs =>
    (match jSkipWS cs with
     | ']' :: rest => .ok (.elems [], rest)
     | cs1 => jParseCore fuel .arrLoop cs1)
  | fuel + 1, .arrLoop, cs =>
    (match jParseCore fuel .value cs with
     | .ok (.val v, rest) =>
       (match jSkipWS rest with
        | ',' :: rest2 =>
          (match jParseCore fuel .arrLoop rest2 with
           | .ok (.elems es, r) => .ok (.elems (v :: es), r)
           | .ok (_, _) => .error ("internal: array loop")
           | .error e => .error e)
        | ']' :: rest2 => .ok (.elems [v], rest2)
        | _ => .error ("invalid character after array element"))
     | .ok (_, _) => .error ("internal: array element")
     | .error e => .error e)
  | fuel + 1, .objBody, cs =>
    (match jSkipWS cs with
     | '}' :: rest => .ok (.fields [], rest)
     | cs1 => jParseCore fuel .objLoop cs1)
  | fuel + 1, .objLoop, cs =>
    match jSkipWS cs with
    | '"' :: rest =>
      (match jParseStringBody rest with
       | none => .error ("invalid string literal")
       | some (k, rest2) =>
         match jSkipWS rest2 with
         | ':' :: rest3 =>
           (match jParseCore fuel .value rest3 with
            | .ok (.val v, rest4) =>
              (match jSkipWS rest4 with
               | ',' :: rest5 =>
                 (match jParseCore fuel .objLoop rest5 with
                  | .ok (.fields fs, r) => .ok (.fields ((⟨k⟩, v) :: fs), r)
                  | .ok (_, _) => .error ("internal: object loop")
                  | .error e => .error e)
               | '}' :: rest5 => .ok (.fields [(⟨k⟩, v)], rest5)
               | _ => .error ("invalid character after object member"))
            | .ok (_, _) => .error ("internal: object member")
            | .error e => .error e)
         | _ => .error ("invalid character after object key"))
    | _ => .error ("invalid character looking for beginning of object key string")

/-- `json.NewDecoder(bytes.NewReader(out)).Decode(&raw)` with `UseNumber`:
decode one value, ignore trailing data. -/
def goDecodeJSON (s : String) : Except String JValue :=
  match jParseCore (4 * s.data.length + 8) .value s.data with
  | .ok (.val v, _) => .ok v
  | .ok (_, _) => .error ("internal: top level")
  | .error e => .error e

/-! ## Windows collector (`ps_windows.go`) -/

/-- `bufio.Scanner` with `ScanLines`: split on `\n`, strip one trailing `\r`
per line, no empty token after a final newline. -/
def goScanLines (cs : List Char) : List (List Char) :=
  let parts := cs.splitOn '\n'
  let parts := if parts.getLast? = some [] then parts.dropLast else parts
  parts.map (fun l => if l.getLast? = some '\r' then l.dropLast else l)

/-- `sanitizeJSON` from `ps_windows.go`: keep only the trimmed non-empty
lines that start with `{` or `[`, joined by newlines. -/
def sanitizeJSON (s : String) : String :=
  let useful := (goScanLines s.data).filterMap (fun line =>
    let t := goTrimSpace line
    if t.isEmpty then none
    else if t.head? = some '{' ∨ t.head? = some '[' then some t
    else none)
  ⟨List.intercalate ['\n'] useful⟩

/-- The decode phase of the Windows `collectProcesses` (lines 27–40): direct
decode, on failure one retry on the sanitized copy, surfacing the original
error if the retry also fails. -/
def winDecodeOutput (out : String) : Except String JValue :=
  match goDecodeJSON out with
  | .ok v => .ok v
  | .error e =>
    match goDecodeJSON (sanitizeJSON out) with
    | .ok v => .ok v
    | .error _ => .error e

/-- Last-binding-wins lookup in a decoded JSON object, matching Go's
`map[string]any` built by the decoder. -/
def jLookup (fields : List (String × JValue)) (k : String) : Option JValue :=
  (fields.reverse.find? (fun f => f.1 = k)).map (fun f => f.2)

/-- `toSliceOfMaps` from `ps_windows.go`. -/
def toSliceOfMaps : JValue → List (List (String × JValue))
  | .arr es => es.filterMap (fun e => match e with | .obj m => some m | _ => none)
  | .obj m => [m]
  | _ => []

/-- `getString` from `ps_windows.go` (the `float64` branch is unreachable
under `UseNumber`). -/
def getString (m : List (String × JValue)) (k : String) : String :=
  match jLookup m k with
  | some (.str t) => t
  | some (.num t) => t
  | _ => ""

/-- `getInt64` from `ps_windows.go`. -/
def getInt64 (m : List (String × JValue)) (k : String) : Int :=
  match jLookup m k with
  | some (.num t) => (goParseInt64Ok t.data).getD 0
  | some (.str t) => (goParseInt64Ok (goTrimSpace t.data)).getD 0
  | _ => 0

/-- `getUint64` from `ps_windows.go`. -/
def getUint64 (m : List (String × JValue)) (k : String) : Nat :=
  let v := getInt64 m k
  if 0 < v then v.toNat else 0

/-- `time.Time{}.UTC()` (the zero time, 0001-01-01T00:00:00Z) in microseconds
since the Unix epoch. -/
def winZeroTimeMicro : Int := -62135596800000000

/-- `utcRFC3339` from `ps_windows.go`, on an instant in microseconds. -/
def utcRFC3339 (tMicro : Int) : String :=
  if tMicro = winZeroTimeMicro then "" else rfc3339UTC (tMicro.fdiv 1000000)

/-! The canonical record shape (`cmd/ps/ps.go`).  The two float64 CPU-seconds
fields are deliberately not modelled (IEEE-754; no claim mentions them).
Pointer-valued Go fields become `Option`s (`none` = nil = omitted in JSON). -/

structure Process where
  pid : Int
  ppid : Int
  uid : Nat
  gid : Nat
  user : String
  group : String
  state : String
  tty : String
  comm : String
  command : String
  exe : String := ""
  cwd : String := ""
  memRSSBytes : Int
  memVMSBytes : Int
  memSwapBytes : Int := 0
  threads : Option Int := none
  nice : Option Int := none
  priority : Option Int := none
  startTime : String
  startTimeUnixNs : Int
  elapsedSeconds : Option Int := none
  cgroup : Option String := none
  cgroups : Option (List String) := none
  containerID : Option String := none
  ioStats : Option (Nat × Nat) := none
  selinuxLabel : Option String := none

/-- The per-row body of the Windows `collectProcesses` loop (lines 46–129):
`none` models `continue` on a non-positive process id.  `now.Sub(start)` is
modelled at microsecond resolution with truncating division to seconds. -/
def rowToProcess (nowMicro : Int) (m : List (String × JValue)) : Option Process :=
  let pid := getInt64 m ("ProcessId")
  if pid ≤ 0 then none
  else
    let start :=
      let cd := getString m ("CreationDate")
      if cd ≠ "" then
        match parseCIMDateTime cd with
        | some t => t
        | none => winZeroTimeMicro
      else winZeroTimeMicro
    let elapsed : Int :=
      if start ≠ winZeroTimeMicro then (nowMicro - start).tdiv 1000000 else 0
    let readBytes := getUint64 m ("ReadTransferCount")
    let writeBytes := getUint64 m ("WriteTransferCount")
    some { pid := pid
           ppid := getInt64 m ("ParentProcessId")
           uid := 0
           gid := 0
           user := getString m ("User")
           group := ""
           state := ""
           tty := ""
           comm := getString m ("Name")
           command := getString m ("CommandLine")
           exe := getString m ("ExecutablePath")
           cwd := ""
           memRSSBytes := getInt64 m ("WorkingSetSize")
           memVMSBytes := getInt64 m ("VirtualSize")
           memSwapBytes := 0
           threads := some (getInt64 m ("ThreadCount"))
           nice := none
           priority := some (getInt64 m ("Priority"))
           startTime := utcRFC3339 start
           startTimeUnixNs := wrap64 (start * 1000)
           elapsedSeconds := some elapsed
           ioStats := if readBytes ≠ 0 ∨ writeBytes ≠ 0 then some (readBytes, writeBytes) else none }

/-- The Windows `collectProcesses` applied to the captured PowerShell output
(the query-transport error path surfaces before any of this logic). -/
def winCollectFromOutput (output : String) (nowMicro : Int) :
    Except String (List Process) :=
  match winDecodeOutput output with
  | .error e => .error e
  | .ok raw => .ok ((toSliceOfMaps raw).filterMap (rowToProcess nowMicro))

/-! ## Linux collector (`ps_linux.go`) -/

/-- One entry of `os.ReadDir("/proc")`. -/
structure DirEntry where
  name : String
  isDir : Bool

/-- The world the Linux collector reads: the `/proc` listing, file contents
(`none` = unreadable), symlink targets (`none` = unresolvable), the identity
databases, `unix.Sysconf(_SC_CLK_TCK)` and wall-clock time.  `now` is carried
at whole-second resolution (sub-second parts only influence the float CPU and
elapsed values, which are modelled at this resolution). -/
structure LinuxWorld where
  readDir : Except String (List DirEntry)
  readFile : String → Option String
  readLinkF : String → Option String
  userDB : Nat → Option String
  groupDB : Nat → Option String
  sysconfClkTck : Option Int
  nowSec : Int

/-- `clockTicks` from `ps_linux.go`: the sysconf value when positive, the
conventional fallback 100 otherwise. -/
def clockTicks (w : LinuxWorld) : Int :=
  match w.sysconfClkTck with
  | some v => if 0 < v then v else 100
  | none => 100

/-- `bootTime` from `ps_linux.go` combined with the caller's discarded
error (`btime, _ := bootTime()`): 0 when `/proc/stat` is unreadable or has
no well-formed `btime` line. -/
def bootTime (w : LinuxWorld) : Int :=
  match w.readFile ("/proc/stat") with
  | none => 0
  | some content =>
    let v := (goScanLines content.data).findSome? (fun l =>
      if l.take 6 = ("btime ").data then
        match goFields l with
        | _ :: v :: _ => some (goParseInt64 v)
        | _ => none
      else none)
    v.getD 0

/-- Parsed fields of `/proc/[pid]/stat` (`procStat` in `ps_linux.go`). -/
structure ProcStat where
  ppid : Int
  state : String
  comm : String
  utime : Nat
  stime : Nat
  starttime : Nat
  priority : Int
  nice : Int
  numThreads : Int
  ttyNr : Int

/-- Outcome of `readProcStat`'s parsing: a Go error return (`failed`), a
runtime panic (`panicked` — `fields[21-1]` is read although only
`len(fields) >= 20` was checked), or the parsed struct. -/
inductive StatParse where
  | failed
  | panicked
  | parsed (st : ProcStat)

/-- `strings.LastIndexByte`. -/
def goLastIndexChar (c : Char) (cs : List Char) : Option Nat :=
  (cs.reverse.findIdx? (fun x => x = c)).map (fun i => cs.length - 1 - i)

/-- The parsing part of `readProcStat` (`ps_linux.go` lines 185–222), applied
to the bytes of `/proc/[pid]/stat`. -/
def parseProcStat (content : String) : StatParse :=
  let s := content.data
  match s.findIdx? (fun c => c = '('), goLastIndexChar ')' s with
  | some l, some r =>
    if r ≤ l then .failed
    else
      let comm : String := ⟨(s.take r).drop (l + 1)⟩
      let rest := goTrimSpace (s.drop (r + 1))
      let fields := goFields rest
      if fields.length < 20 then .failed
      else
        match fields.get? 20 with
        | none => .panicked
        | some starttimeF =>
          .parsed
            { ppid := goParseInt64 ((fields.get? 1).getD [])
              state := ⟨(fields.get? 0).getD []⟩
              comm := comm
              utime := goParseUint64 ((fields.get? 12).getD [])
              stime := goParseUint64 ((fields.get? 13).getD [])
              starttime := goParseUint64 starttimeF
              priority := goParseInt64 ((fields.get? 16).getD [])
              nice := goParseInt64 ((fields.get? 17).getD [])
              numThreads := goParseInt64 ((fields.get? 18).getD [])
              ttyNr := goParseInt64 ((fields.get? 5).getD []) }
  | _, _ => .failed

/-- `readStatusMap` lookup semantics: the `key: value` lines of the status
file as a last-binding-wins map with trimmed keys and values; a missing key
(or, at the caller, an unreadable file giving the nil map) reads as `""`. -/
def readStatusMap (content : String) (key : String) : String :=
  let pairs := (goScanLines content.data).filterMap (fun line =>
    match line.findIdx? (fun c => c = ':') with
    | some i =>
      some ((⟨goTrimSpace (line.take i)⟩ : String), (⟨goTrimSpace (line.drop (i + 1))⟩ : String))
    | none => none)
  (((pairs.reverse.find? (fun p => p.1 = key)).map (fun p => p.2)).getD (""))

/-- `status[key]` in `readOneProcess`, where `status, _ := readStatusMap(...)`
leaves the nil map on read failure. -/
def statusGet (w : LinuxWorld) (path : String) (key : String) : String :=
  match w.readFile path with
  | none => ""
  | some content => readStatusMap content key

/-- `readCmdline` from `ps_linux.go`. -/
def readCmdline (content? : Option String) : String :=
  match content? with
  | none => ""
  | some c =>
    if c.data.isEmpty then ""
    else
      let trimmed := (c.data.reverse.dropWhile (fun ch => ch = Char.ofNat 0)).reverse
      ⟨List.intercalate [' '] (trimmed.splitOn (Char.ofNat 0))⟩

/-- `readLink` from `ps_linux.go`: empty string on failure. -/
def readLink (w : LinuxWorld) (path : String) : String :=
  (w.readLinkF path).getD ("")

/-- `deriveTTY` from `ps_linux.go`: resolve `fd/0` and strip `/dev/`. -/
def deriveTTY (w : LinuxWorld) (base : String) : String :=
  let link := readLink w (base ++ "/fd/0")
  if link ≠ "" ∧ link.data.take 5 = ("/dev/").data then ⟨link.data.drop 5⟩ else ""

/-- `readIO` from `ps_linux.go`: `none` when the file is unreadable; the
`fmt.Sscanf("...: %d")` calls are modelled as reading the leading decimal
digits of the trimmed remainder, leaving the accumulator unchanged when there
are none. -/
def readIO (content? : Option String) : Option (Nat × Nat) :=
  match content? with
  | none => none
  | some c =>
    some ((goScanLines c.data).foldl (fun acc line =>
      if line.take 11 = ("read_bytes:").data then
        let tok := (goTrimSpace (line.drop 11)).takeWhile isDigitChar
        if tok.isEmpty then acc else (digitsVal tok, acc.2)
      else if line.take 12 = ("write_bytes:").data then
        let tok := (goTrimSpace (line.drop 12)).takeWhile isDigitChar
        if tok.isEmpty then acc else (acc.1, digitsVal tok)
      else acc) (0, 0))

/-- `ProcNamespaces` from `cmd/ps/ps.go`. -/
structure ProcNamespaces where
  mnt : String
  pid : String
  net : String
  uts : String
  ipc : String
  user : String
  cgroup : String

/-- `readNamespaces` from `ps_linux.go`: `none` when every link is empty. -/
def readNamespaces (w : LinuxWorld) (nsDir : String) : Option ProcNamespaces :=
  let mnt := readLink w (nsDir ++ "/mnt")
  let pid := readLink w (nsDir ++ "/pid")
  let net := readLink w (nsDir ++ "/net")
  let uts := readLink w (nsDir ++ "/uts")
  let ipc := readLink w (nsDir ++ "/ipc")
  let usr := readLink w (nsDir ++ "/user")
  let cg := readLink w (nsDir ++ "/cgroup")
  if mnt = "" ∧ pid = "" ∧ net = "" ∧ uts = "" ∧ ipc = "" ∧ usr = "" ∧ cg = "" then none
  else some { mnt := mnt, pid := pid, net := net, uts := uts, ipc := ipc, user := usr, cgroup := cg }

/-- `readSELinuxLabel` from `ps_linux.go`. -/
def readSELinuxLabel (content? : Option String) : Option String :=
  match content? with
  | none => none
  | some c =>
    let v : String := ⟨goTrimSpace c.data⟩
    if v = "" ∨ v = "kernel" then none else some v

/-- Hexadecimal character class of `containerIDRe` (`(?i)[a-f0-9]{12,64}`). -/
def isHexIDChar (c : Char) : Bool :=
  isDigitChar c ∨ (97 ≤ c.toNat ∧ c.toNat ≤ 102) ∨ (65 ≤ c.toNat ∧ c.toNat ≤ 70)

/-- `containerIDRe.FindString` on one path segment: leftmost position with at
least 12 consecutive hex characters; the greedy match takes at most 64. -/
def findHexToken : List Char → Option (List Char)
  | [] => none
  | c :: rest =>
    let run := (c :: rest).takeWhile isHexIDChar
    if 12 ≤ run.length then some (run.take 64) else findHexToken rest

/-- The per-segment update of `extractContainerID`'s loop: keep the longer
of the current best and the segment's match. -/
def cgBestStep (best : List Char) (seg : List Char) : List Char :=
  match findHexToken seg with
  | some m => if best.length < m.length then m else best
  | none => best

/-- `extractContainerID` from `ps_linux.go`: longest per-segment match wins,
first among equals. -/
def extractContainerID (path : String) : String :=
  ⟨(goSplitChar '/' path.data).foldl cgBestStep []⟩

/-- The loop body of `readCgroups`, on the accumulator
`(all paths, primary, container id)`: a line contributes only when
`SplitN(line, ":", 3)` yields three parts; the first non-empty path and the
first line-extracted container id are retained. -/
def cgLineStep (acc : List String × Option String × Option String)
    (line : List Char) : List String × Option String × Option String :=
  match goSplitNChar ':' 3 line with
  | [_, _, path] =>
    let pstr : String := ⟨path⟩
    let primary := match acc.2.1 with
      | some p => some p
      | none => if pstr ≠ "" then some pstr else none
    let cid := match acc.2.2 with
      | some c => some c
      | none =>
        let idv := extractContainerID pstr
        if idv ≠ "" then some idv else none
    (acc.1 ++ [pstr], primary, cid)
  | _ => acc

/-- `readCgroups` from `ps_linux.go`: `(primary, all, containerID)`. -/
def readCgroups (content? : Option String) :
    Option String × Option (List String) × Option String :=
  match content? with
  | none => (none, none, none)
  | some content =>
    let r := (goScanLines content.data).foldl cgLineStep ([], none, none)
    if r.1.isEmpty then (none, none, r.2.2) else (r.2.1, some r.1, r.2.2)

/-- Outcome of `readOneProcess`: a Go error return (the caller skips the
process), a propagated runtime panic, or a record. -/
inductive ReadOutcome where
  | dropped
  | panicked
  | proc (p : Process)

/-- `readOneProcess` from `ps_linux.go`. -/
def readOneProcess (w : LinuxWorld) (pid : Int) : ReadOutcome :=
  let base := "/proc/" ++ pid.repr
  match w.readFile (base ++ "/stat") with
  | none => .dropped
  | some content =>
    match parseProcStat content with
    | .panicked => .panicked
    | .failed => .dropped
    | .parsed st =>
      let uid := parseFirstUint (statusGet w (base ++ "/status") ("Uid"))
      let gid := parseFirstUint (statusGet w (base ++ "/status") ("Gid"))
      let hz := clockTicks w
      let btime := bootTime w
      let startSec :=
        if 0 < btime ∧ 0 < hz then btime + (wrap64 (st.starttime : Int)).tdiv hz
        else w.nowSec
      let cg := readCgroups (w.readFile (base ++ "/cgroup"))
      .proc
        { pid := pid
          ppid := st.ppid
          uid := uid
          gid := gid
          user := lookupUserName w.userDB uid
          group := lookupGroupName w.groupDB gid
          state := normalizeState st.state
          tty := deriveTTY w base
          comm := st.comm
          command := readCmdline (w.readFile (base ++ "/cmdline"))
          exe := readLink w (base ++ "/exe")
          cwd := readLink w (base ++ "/cwd")
          memRSSBytes := wrap64 (parseKB (statusGet w (base ++ "/status") ("VmRSS")) * 1024)
          memVMSBytes := wrap64 (parseKB (statusGet w (base ++ "/status") ("VmSize")) * 1024)
          memSwapBytes := wrap64 (parseKB (statusGet w (base ++ "/status") ("VmSwap")) * 1024)
          threads := some st.numThreads
          nice := some st.nice
          priority := some st.priority
          startTime := rfc3339UTC startSec
          startTimeUnixNs := wrap64 (startSec * 1000000000)
          elapsedSeconds := some (w.nowSec - startSec)
          cgroup := cg.1
          cgroups := cg.2.1
          containerID := cg.2.2
          ioStats := readIO (w.readFile (base ++ "/io"))
          selinuxLabel := readSELinuxLabel (w.readFile (base ++ "/attr/current")) }

/-- Result of a whole collection run on Linux: the `ReadDir` error, a
propagated per-process panic, or the snapshot. -/
inductive CollectResult where
  | failed (e : String)
  | panicked
  | ok (ps : List Process)

/-- The loop body of the Linux `collectProcesses` for one directory entry:
`none` models every `continue`. -/
def entryToProcess (w : LinuxWorld) (e : DirEntry) : Option ReadOutcome :=
  if !e.isDir then none
  else match goAtoiOk e.name.data with
    | none => none
    | some pid => if pid ≤ 0 then none else some (readOneProcess w pid)

/-- The `for` loop of the Linux `collectProcesses`: records in entry order,
a per-process panic aborting the whole run. -/
def collectLoop (w : LinuxWorld) : List DirEntry → Except Unit (List Process)
  | [] => .ok []
  | e :: es =>
    match entryToProcess w e with
    | none => collectLoop w es
    | some .dropped => collectLoop w es
    | some .panicked => .error ()
    | some (.proc p) => (collectLoop w es).map (fun ps => p :: ps)

/-- `collectProcesses` from `ps_linux.go`. -/
def collectLinux (w : LinuxWorld) : CollectResult :=
  match w.readDir with
  | .error e => .failed e
  | .ok entries =>
    match collectLoop w entries with
    | .error _ => .panicked
    | .ok ps => .ok ps

/-! ## Darwin collector (the `ps axo ...` parser) -/

/-- The per-line body of the Darwin `collectProcesses` loop, on an already
trimmed non-empty line: `none` models the `continue` for lines with fewer
than the 15 fixed columns.  `now` is carried in nanoseconds;
`now.Add(-time.Duration(elapsed) * time.Second)` wraps in `int64`. -/
def darwinLineToProcess (nowNs : Int) (line : List Char) : Option Process :=
  match goFields line with
  | f0 :: f1 :: f2 :: f3 :: f4 :: f5 :: f6 :: f7 :: f8 :: _f9 :: f10 :: f11 :: f12 :: f13 :: f14 :: rest =>
    let tty : String := ⟨f7⟩
    let tty := if tty = "??" ∨ tty = "-" then "" else tty
    let elapsed := parseElapsedToSeconds ⟨f14⟩
    let startNs := nowNs - wrap64 (elapsed * 1000000000)
    some
      { pid := goParseInt64 f0
        ppid := goParseInt64 f1
        uid := goParseUint32 f2
        gid := goParseUint32 f3
        user := ⟨f4⟩
        group := ⟨f5⟩
        state := firstStateRune ⟨f6⟩
        tty := tty
        comm := ⟨f8⟩
        command := ⟨List.intercalate [' '] rest⟩
        memRSSBytes := wrap64 (goParseInt64 f10 * 1024)
        memVMSBytes := wrap64 (goParseInt64 f11 * 1024)
        memSwapBytes := 0
        nice := some (goParseInt64 f12)
        priority := some (goParseInt64 f13)
        startTime := rfc3339UTC (startNs.fdiv 1000000000)
        startTimeUnixNs := wrap64 startNs
        elapsedSeconds := some elapsed }
  | _ => none

/-- The Darwin `collectProcesses` applied to the captured `ps` output (the
invocation-error path surfaces before any of this logic; the scanner's
1 MiB line limit is not modelled — no claim reaches it). -/
def darwinCollectFromOutput (output : String) (nowNs : Int) : List Process :=
  (goScanLines output.data).filterMap (fun line =>
    let cs := goTrimSpace line
    if cs.isEmpty then none else darwinLineToProcess nowNs cs)

/-! ## Declarative (spec-side) characterizations and claim-statement helpers -/

/-- The path component of one `id:controller-list:path` line (a line needs
at least two colons to split into three parts). -/
def cgLinePath (line : List Char) : Option String :=
  match goSplitNChar ':' 3 line with
  | [_, _, path] => some ((⟨path⟩ : String))
  | _ => none

/-- The container id one line contributes, if any. -/
def cgLineCid (line : List Char) : Option String :=
  match goSplitNChar ':' 3 line with
  | [_, _, path] =>
    let idv := extractContainerID ((⟨path⟩ : String))
    if idv ≠ "" then some idv else none
  | _ => none

/-- The path components of every well-formed line, in order. -/
def cgroupPaths (content : String) : List String :=
  (goScanLines content.data).filterMap cgLinePath

/-- The first non-empty collected path. -/
def firstNonemptyPath (paths : List String) : Option String :=
  paths.find? (fun p => p ≠ "")

/-- The container id: scanning the lines in order, the first line whose path
yields a hexadecimal token. -/
def cgroupCid (content : String) : Option String :=
  (goScanLines content.data).findSome? cgLineCid

/-- First-wins combination of two optional values, as the accumulating loop
computes it. -/
def orFirst {α : Type} : Option α → Option α → Option α
  | some x, _ => some x
  | none, b => b

/-- A canonical `MM:SS` duration string (two zero-padded digits each). -/
def mkMMSS (m s : Nat) : String :=
  ⟨[dchar (m / 10), dchar m, ':', dchar (s / 10), dchar s]⟩

/-- A canonical `HH:MM:SS` duration string. -/
def mkHMS (h m s : Nat) : String :=
  ⟨[dchar (h / 10), dchar h, ':', dchar (m / 10), dchar m, ':', dchar (s / 10), dchar s]⟩

/-- A canonical `DD-HH:MM:SS` duration string (two zero-padded day digits). -/
def mkDHMS (d h m s : Nat) : String :=
  ⟨[dchar (d / 10), dchar d, '-', dchar (h / 10), dchar h, ':',
    dchar (m / 10), dchar m, ':', dchar (s / 10), dchar s]⟩

/-- The pid values of a successful Linux collection. -/
def collectResultPids : CollectResult → Option (List Int)
  | .ok ps => some (ps.map (fun p => p.pid))
  | _ => none

/-- The user field of a produced record. -/
def outcomeUser : ReadOutcome → Option String
  | .proc p => some p.user
  | _ => none

/-- The pid a Linux directory entry contributes when its name passes the
`Atoi`/positivity gate (`none` models the `continue`s). -/
def entryPid (e : DirEntry) : Option Int :=
  if !e.isDir then none
  else
    match goAtoiOk e.name.data with
    | none => none
    | some pid => if pid ≤ 0 then none else some pid

/-- The records of a successful Windows collection (empty on error). -/
def okRecords : Except String (List Process) → List Process
  | .ok ps => ps
  | .error _ => []

/-- The records of a successful Linux collection (empty on error/panic). -/
def linuxOkRecords : CollectResult → List Process
  | .ok ps => ps
  | _ => []

/-! # Theorems -/

/-! ## Generic helper lemmas -/

theorem toDigitsCore_length_ge (fuel : Nat) : ∀ (n : Nat) (ds : List Char),
    ds.length ≤ (Nat.toDigitsCore 10 fuel n ds).length := by
  induction fuel with
  | zero => intro n ds; simp [Nat.toDigitsCore]
  | succ f ih =>
    intro n ds
    unfold Nat.toDigitsCore
    dsimp only
    split
    · simp
    · exact le_trans (by simp) (ih _ _)

theorem natRepr_ne_empty (n : Nat) : Nat.repr n ≠ "" := by
  show (Nat.toDigits 10 n).asString ≠ ""
  unfold Nat.toDigits List.asString
  intro h
  have hlen : (Nat.toDigitsCore 10 (n + 1) n []).length = 0 := by
    have := congrArg (fun s => s.data.length) h
    simpa using this
  unfold Nat.toDigitsCore at hlen
  dsimp only at hlen
  split at hlen
  · simp at hlen
  · have h1 : (1 : Nat) ≤ (Nat.toDigitsCore 10 n (n / 10) [Nat.digitChar (n % 10)]).length := by
      have := toDigitsCore_length_ge n (n / 10) [Nat.digitChar (n % 10)]
      simpa using this
    omega

/-! ## C2: kilobyte-to-byte conversion -/

/-- C2 counterexample: the claim says `parseKB "12345 kB" * 1024` equals
12,645,120; the code yields 12,641,280 (= 12345 × 1024), so the claimed
figure is arithmetically wrong. -/
theorem C2_kb_cex : ¬ (parseKB ("12345 kB") * 1024 = 12645120) := by decide

/-- C2 (amended): the Linux kilobyte-to-byte conversion applied to the
status-file value string "12345 kB" yields exactly 12,641,280 bytes. -/
theorem C2_kb_exact : parseKB ("12345 kB") * 1024 = 12641280 := by decide

/-! ## C9: identity-name fallback -/

/-- C9: when the identity-database lookup fails for a numeric id, the
user-name and group-name resolutions return exactly the decimal string of
that id, which is never empty; both functions are total (no error path). -/
theorem C9_identity_fallback (userDB groupDB : Nat → Option String) (uid gid : Nat)
    (hu : userDB uid = none) (hg : groupDB gid = none) :
    lookupUserName userDB uid = Nat.repr uid ∧
    lookupGroupName groupDB gid = Nat.repr gid ∧
    Nat.repr uid ≠ "" ∧ Nat.repr gid ≠ "" := by
  refine ⟨?_, ?_, natRepr_ne_empty uid, natRepr_ne_empty gid⟩
  · unfold lookupUserName; rw [hu]
  · unfold lookupGroupName; rw [hg]

/-- C9 witness: a database with no entry for id 1000 resolves both names to
the string "1000". -/
theorem C9_identity_fallback_witness :
    lookupUserName (fun _ => none) 1000 = Nat.repr 1000 ∧
    lookupGroupName (fun _ => none) 1000 = Nat.repr 1000 ∧
    Nat.repr 1000 ≠ "" ∧ Nat.repr 1000 ≠ "" :=
  C9_identity_fallback (fun _ => none) (fun _ => none) 1000 1000 rfl rfl

/-! ## Helper lemmas about digit characters and digit parsing -/

@[simp] theorem dchar_isDigit (n : Nat) : isDigitChar (dchar n) = true := by
  unfold dchar
  have h : n % 10 < 10 := Nat.mod_lt _ (by omega)
  generalize n % 10 = k at h ⊢
  interval_cases k <;> decide

@[simp] theorem dchar_isSpace (n : Nat) : goIsSpace (dchar n) = false := by
  unfold dchar
  have h : n % 10 < 10 := Nat.mod_lt _ (by omega)
  generalize n % 10 = k at h ⊢
  interval_cases k <;> decide

@[simp] theorem dchar_toNat (n : Nat) : (dchar n).toNat = 48 + n % 10 := by
  unfold dchar
  have h : n % 10 < 10 := Nat.mod_lt _ (by omega)
  generalize n % 10 = k at h ⊢
  interval_cases k <;> decide

@[simp] theorem dchar_ne_minus (n : Nat) : dchar n ≠ '-' := by
  unfold dchar
  have h : n % 10 < 10 := Nat.mod_lt _ (by omega)
  generalize n % 10 = k at h ⊢
  interval_cases k <;> decide

@[simp] theorem dchar_ne_plus (n : Nat) : dchar n ≠ '+' := by
  unfold dchar
  have h : n % 10 < 10 := Nat.mod_lt _ (by omega)
  generalize n % 10 = k at h ⊢
  interval_cases k <;> decide

@[simp] theorem dchar_ne_colon (n : Nat) : dchar n ≠ ':' := by
  unfold dchar
  have h : n % 10 < 10 := Nat.mod_lt _ (by omega)
  generalize n % 10 = k at h ⊢
  interval_cases k <;> decide

@[simp] theorem dchar_ne_dot (n : Nat) : dchar n ≠ '.' := by
  unfold dchar
  have h : n % 10 < 10 := Nat.mod_lt _ (by omega)
  generalize n % 10 = k at h ⊢
  interval_cases k <;> decide

@[simp] theorem dchar_ne_tee (n : Nat) : dchar n ≠ 'T' := by
  unfold dchar
  have h : n % 10 < 10 := Nat.mod_lt _ (by omega)
  generalize n % 10 = k at h ⊢
  interval_cases k <;> decide

theorem isDigitChar_ne_minus {c : Char} (h : isDigitChar c = true) : c ≠ '-' := by
  intro he; subst he; simp [isDigitChar] at h

theorem isDigitChar_ne_plus {c : Char} (h : isDigitChar c = true) : c ≠ '+' := by
  intro he; subst he; simp [isDigitChar] at h

theorem goTrimSpace_eq_self {cs : List Char} (h : ∀ c ∈ cs, goIsSpace c = false) :
    goTrimSpace cs = cs := by
  unfold goTrimSpace
  have h1 : cs.dropWhile goIsSpace = cs := by
    cases cs with
    | nil => rfl
    | cons a l =>
      rw [List.dropWhile_cons_of_neg]
      simp [h a (by simp)]
  rw [h1]
  have h2 : cs.reverse.dropWhile goIsSpace = cs.reverse := by
    cases hr : cs.reverse with
    | nil => rfl
    | cons a l =>
      rw [List.dropWhile_cons_of_neg]
      have ha : a ∈ cs := by
        have : a ∈ cs.reverse := by rw [hr]; simp
        simpa using this
      simp [h a ha]
  rw [h2, List.reverse_reverse]

theorem goParseInt64_digits {ds : List Char} (hd : ds ≠ [])
    (hall : ∀ c ∈ ds, isDigitChar c = true)
    (hrange : (digitsVal ds : Int) ≤ int64MaxI) :
    goParseInt64 ds = (digitsVal ds : Nat) := by
  obtain ⟨c, tl, rfl⟩ : ∃ c tl, ds = c :: tl := by
    cases ds with
    | nil => exact absurd rfl hd
    | cons c tl => exact ⟨c, tl, rfl⟩
  have hc := hall c (by simp)
  unfold goParseInt64
  dsimp only
  rw [if_neg (isDigitChar_ne_minus hc), if_neg (isDigitChar_ne_plus hc)]
  rw [if_pos ⟨by simp, List.all_eq_true.mpr hall⟩]
  simp only [Bool.false_eq_true, if_false]
  have h0 : (0 : Int) ≤ (digitsVal (c :: tl) : Nat) := Int.ofNat_nonneg _
  rw [if_neg (by unfold int64MinI; omega), if_neg (by omega)]

theorem goParseInt64Ok_digits {ds : List Char} (hd : ds ≠ [])
    (hall : ∀ c ∈ ds, isDigitChar c = true)
    (hrange : (digitsVal ds : Int) ≤ int64MaxI) :
    goParseInt64Ok ds = some ((digitsVal ds : Nat) : Int) := by
  obtain ⟨c, tl, rfl⟩ : ∃ c tl, ds = c :: tl := by
    cases ds with
    | nil => exact absurd rfl hd
    | cons c tl => exact ⟨c, tl, rfl⟩
  have hc := hall c (by simp)
  unfold goParseInt64Ok
  dsimp only
  rw [if_neg (isDigitChar_ne_minus hc), if_neg (isDigitChar_ne_plus hc)]
  rw [if_pos ⟨by simp, List.all_eq_true.mpr hall⟩]
  simp only [Bool.false_eq_true, if_false]
  have h0 : (0 : Int) ≤ (digitsVal (c :: tl) : Nat) := Int.ofNat_nonneg _
  rw [if_pos ⟨by unfold int64MinI; omega, hrange⟩]

theorem digitsVal_two (x : Nat) (h : x < 100) :
    digitsVal [dchar (x / 10), dchar x] = x := by
  simp only [digitsVal, List.foldl, dchar_toNat]
  omega

theorem wrap64_small {x : Int} (h1 : -(2 ^ 63) ≤ x) (h2 : x < 2 ^ 63) :
    wrap64 x = x := by
  unfold wrap64
  omega

theorem goParseInt64_dduo (x : Nat) (hx : x < 100) :
    goParseInt64 [dchar (x / 10), dchar x] = (x : Int) := by
  have hall : ∀ c ∈ [dchar (x / 10), dchar x], isDigitChar c = true := by
    intro c hc
    rcases List.mem_cons.mp hc with rfl | hc
    · simp
    · rcases List.mem_cons.mp hc with rfl | hc
      · simp
      · simp at hc
  have hv := digitsVal_two x hx
  rw [goParseInt64_digits (by simp) hall (by rw [hv]; unfold int64MaxI; omega), hv]

theorem goParseInt64Ok_dduo (x : Nat) (hx : x < 100) :
    goParseInt64Ok [dchar (x / 10), dchar x] = some ((x : Nat) : Int) := by
  have hall : ∀ c ∈ [dchar (x / 10), dchar x], isDigitChar c = true := by
    intro c hc
    rcases List.mem_cons.mp hc with rfl | hc
    · simp
    · rcases List.mem_cons.mp hc with rfl | hc
      · simp
      · simp at hc
  have hv := digitsVal_two x hx
  rw [goParseInt64Ok_digits (by simp) hall (by rw [hv]; unfold int64MaxI; omega), hv]

theorem goSplitChar_no_sep {sep : Char} {cs : List Char} (h : ∀ c ∈ cs, c ≠ sep) :
    goSplitChar sep cs = [cs] := by
  induction cs with
  | nil => rfl
  | cons a l ih =>
    unfold goSplitChar
    dsimp only
    rw [ih (fun c hc => h c (by simp [hc])), if_neg (h a (by simp))]

theorem mem_goTrimSpace {c : Char} {cs : List Char} (h : c ∈ goTrimSpace cs) : c ∈ cs := by
  unfold goTrimSpace at h
  rw [List.mem_reverse] at h
  have h2 := (List.dropWhile_sublist goIsSpace).mem h
  rw [List.mem_reverse] at h2
  exact (List.dropWhile_sublist goIsSpace).mem h2

/-! ## C7: the `[[DD-]HH:]MM:SS` duration grammar -/

theorem parseElapsed_mmss (m s : Nat) (hm : m < 100) (hs : s < 100) :
    parseElapsedToSeconds (mkMMSS m s) = m * 60 + s := by
  have hdata : (mkMMSS m s).data = [dchar (m / 10), dchar m, ':', dchar (s / 10), dchar s] := rfl
  have htrim : goTrimSpace (mkMMSS m s).data = (mkMMSS m s).data := by
    refine goTrimSpace_eq_self ?_
    intro c hc
    rw [hdata] at hc
    rcases List.mem_cons.mp hc with rfl | hc; · simp
    rcases List.mem_cons.mp hc with rfl | hc; · simp
    rcases List.mem_cons.mp hc with rfl | hc; · decide
    rcases List.mem_cons.mp hc with rfl | hc; · simp
    rcases List.mem_cons.mp hc with rfl | hc; · simp
    simp at hc
  have hnod : List.findIdx? (fun c => decide (c = '-'))
      [dchar (m / 10), dchar m, ':', dchar (s / 10), dchar s] = none := by
    rw [List.findIdx?_eq_none_iff]
    intro c hc
    rcases List.mem_cons.mp hc with rfl | hc; · simp
    rcases List.mem_cons.mp hc with rfl | hc; · simp
    rcases List.mem_cons.mp hc with rfl | hc; · decide
    rcases List.mem_cons.mp hc with rfl | hc; · simp
    rcases List.mem_cons.mp hc with rfl | hc; · simp
    simp at hc
  have hsplit : goSplitChar ':' [dchar (m / 10), dchar m, ':', dchar (s / 10), dchar s] =
      [[dchar (m / 10), dchar m], [dchar (s / 10), dchar s]] := by
    simp [goSplitChar]
  unfold parseElapsedToSeconds
  rw [htrim, hdata]
  simp only [List.isEmpty_cons, Bool.false_eq_true, if_false]
  rw [hnod, hsplit]
  dsimp only
  rw [goParseInt64_dduo m hm, goParseInt64_dduo s hs]
  rw [wrap64_small (by omega) (by omega)]
  omega

theorem parseElapsed_hms (h m s : Nat) (hh : h < 100) (hm : m < 100) (hs : s < 100) :
    parseElapsedToSeconds (mkHMS h m s) = h * 3600 + m * 60 + s := by
  have hdata : (mkHMS h m s).data =
      [dchar (h / 10), dchar h, ':', dchar (m / 10), dchar m, ':', dchar (s / 10), dchar s] := rfl
  have htrim : goTrimSpace (mkHMS h m s).data = (mkHMS h m s).data := by
    refine goTrimSpace_eq_self ?_
    intro c hc
    rw [hdata] at hc
    rcases List.mem_cons.mp hc with rfl | hc; · simp
    rcases List.mem_cons.mp hc with rfl | hc; · simp
    rcases List.mem_cons.mp hc with rfl | hc; · decide
    rcases List.mem_cons.mp hc with rfl | hc; · simp
    rcases List.mem_cons.mp hc with rfl | hc; · simp
    rcases List.mem_cons.mp hc with rfl | hc; · decide
    rcases List.mem_cons.mp hc with rfl | hc; · simp
    rcases List.mem_cons.mp hc with rfl | hc; · simp
    simp at hc
  have hnod : List.findIdx? (fun c => decide (c = '-'))
      [dchar (h / 10), dchar h, ':', dchar (m / 10), dchar m, ':', dchar (s / 10), dchar s] = none := by
    rw [List.findIdx?_eq_none_iff]
    intro c hc
    rcases List.mem_cons.mp hc with rfl | hc; · simp
    rcases List.mem_cons.mp hc with rfl | hc; · simp
    rcases List.mem_cons.mp hc with rfl | hc; · decide
    rcases List.mem_cons.mp hc with rfl | hc; · simp
    rcases List.mem_cons.mp hc with rfl | hc; · simp
    rcases List.mem_cons.mp hc with rfl | hc; · decide
    rcases List.mem_cons.mp hc with rfl | hc; · simp
    rcases List.mem_cons.mp hc with rfl | hc; · simp
    simp at hc
  have hsplit : goSplitChar ':'
      [dchar (h / 10), dchar h, ':', dchar (m / 10), dchar m, ':', dchar (s / 10), dchar s] =
      [[dchar (h / 10), dchar h], [dchar (m / 10), dchar m], [dchar (s / 10), dchar s]] := by
    simp [goSplitChar]
  unfold parseElapsedToSeconds
  rw [htrim, hdata]
  simp only [List.isEmpty_cons, Bool.false_eq_true, if_false]
  rw [hnod, hsplit]
  dsimp only
  rw [goParseInt64Ok_dduo h hh, goParseInt64_dduo m hm, goParseInt64_dduo s hs]
  dsimp only [Option.getD]
  rw [wrap64_small (by omega) (by omega)]
  omega

theorem parseElapsed_dhms (d h m s : Nat) (hd : d < 100) (hh : h < 100) (hm : m < 100)
    (hs : s < 100) :
    parseElapsedToSeconds (mkDHMS d h m s) = d * 86400 + h * 3600 + m * 60 + s := by
  have hdata : (mkDHMS d h m s).data =
      [dchar (d / 10), dchar d, '-', dchar (h / 10), dchar h, ':',
       dchar (m / 10), dchar m, ':', dchar (s / 10), dchar s] := rfl
  have htrim : goTrimSpace (mkDHMS d h m s).data = (mkDHMS d h m s).data := by
    refine goTrimSpace_eq_self ?_
    intro c hc
    rw [hdata] at hc
    rcases List.mem_cons.mp hc with rfl | hc; · simp
    rcases List.mem_cons.mp hc with rfl | hc; · simp
    rcases List.mem_cons.mp hc with rfl | hc; · decide
    rcases List.mem_cons.mp hc with rfl | hc; · simp
    rcases List.mem_cons.mp hc with rfl | hc; · simp
    rcases List.mem_cons.mp hc with rfl | hc; · decide
    rcases List.mem_cons.mp hc with rfl | hc; · simp
    rcases List.mem_cons.mp hc with rfl | hc; · simp
    rcases List.mem_cons.mp hc with rfl | hc; · decide
    rcases List.mem_cons.mp hc with rfl | hc; · simp
    rcases List.mem_cons.mp hc with rfl | hc; · simp
    simp at hc
  have hfi : List.findIdx? (fun c => decide (c = '-'))
      [dchar (d / 10), dchar d, '-', dchar (h / 10), dchar h, ':',
       dchar (m / 10), dchar m, ':', dchar (s / 10), dchar s] = some 2 := by
    simp [List.findIdx?_cons]
  have hsplit : goSplitChar ':'
      [dchar (h / 10), dchar h, ':', dchar (m / 10), dchar m, ':', dchar (s / 10), dchar s] =
      [[dchar (h / 10), dchar h], [dchar (m / 10), dchar m], [dchar (s / 10), dchar s]] := by
    simp [goSplitChar]
  unfold parseElapsedToSeconds
  rw [htrim, hdata]
  simp only [List.isEmpty_cons, Bool.false_eq_true, if_false]
  rw [hfi]
  dsimp only
  simp only [List.take_succ_cons, List.take_zero, List.drop_succ_cons, List.drop_zero]
  rw [hsplit, goParseInt64Ok_dduo d hd]
  dsimp only
  rw [goParseInt64Ok_dduo h hh, goParseInt64_dduo m hm, goParseInt64_dduo s hs]
  dsimp only [Option.getD]
  rw [wrap64_small (by omega) (by omega)]

theorem parseElapsed_no_colon (s : String) (h : ∀ c ∈ s.data, c ≠ ':') :
    parseElapsedToSeconds s = 0 := by
  unfold parseElapsedToSeconds
  dsimp only
  by_cases he : (goTrimSpace s.data).isEmpty = true
  · rw [if_pos he]
  · rw [if_neg he]
    have hsub : ∀ c ∈ goTrimSpace s.data, c ≠ ':' := fun c hc => h c (mem_goTrimSpace hc)
    rcases hfi : List.findIdx? (fun c => decide (c = '-')) (goTrimSpace s.data) with _ | i
    · dsimp only
      rw [goSplitChar_no_sep hsub]
    · dsimp only
      have hsub2 : ∀ c ∈ (goTrimSpace s.data).drop (i + 1), c ≠ ':' :=
        fun c hc => hsub c ((List.drop_sublist _ _).mem hc)
      rw [goSplitChar_no_sep hsub2]

/-- C7 counterexample: the minute/second components keep `strconv.ParseInt`'s
discarded-error value, which on a range error is the clamped `MaxInt64`, not
zero — so an in-grammar `MM:SS` value whose seconds component overflows int64
yields 9223372036854775807, while the claim ("unparseable numeric components
treated as zero") requires 0. -/
theorem C7_overflow_cex :
    parseElapsedToSeconds ("0:99999999999999999999") = 9223372036854775807 ∧
    (9223372036854775807 : Int) ≠ 0 :=
  ⟨by decide, by decide⟩

/-- C7 (amended): `parseElapsedToSeconds` maps "01:02" to 62, "01:02:03" to
3723 and "2-01:02:03" to 176523; on canonical two-digit `MM:SS`, `HH:MM:SS`
and `DD-HH:MM:SS` forms it totals days×86400 + hours×3600 + minutes×60 +
seconds; syntactically unparseable components are treated as zero (the day
and hour components on any parse error, while out-of-range minute/second
components saturate to the int64 extreme); inputs without a colon — such as
"abc" — always yield 0, never an error (the function is total). -/
theorem C7_duration_grammar :
    parseElapsedToSeconds ("01:02") = 62 ∧
    parseElapsedToSeconds ("01:02:03") = 3723 ∧
    parseElapsedToSeconds ("2-01:02:03") = 176523 ∧
    parseElapsedToSeconds ("abc") = 0 ∧
    (∀ m s : Nat, m < 100 → s < 100 →
      parseElapsedToSeconds (mkMMSS m s) = m * 60 + s) ∧
    (∀ h m s : Nat, h < 100 → m < 100 → s < 100 →
      parseElapsedToSeconds (mkHMS h m s) = h * 3600 + m * 60 + s) ∧
    (∀ d h m s : Nat, d < 100 → h < 100 → m < 100 → s < 100 →
      parseElapsedToSeconds (mkDHMS d h m s) = d * 86400 + h * 3600 + m * 60 + s) ∧
    (∀ s : String, (∀ c ∈ s.data, c ≠ ':') → parseElapsedToSeconds s = 0) :=
  ⟨by decide, by decide, by decide, by decide, parseElapsed_mmss, parseElapsed_hms,
   parseElapsed_dhms, parseElapsed_no_colon⟩

/-- C7 witness: the universally quantified parts of `C7_duration_grammar`
instantiated at concrete inputs. -/
theorem C7_duration_grammar_witness :
    parseElapsedToSeconds (mkMMSS 1 2) = 1 * 60 + 2 ∧
    parseElapsedToSeconds (mkHMS 1 2 3) = 1 * 3600 + 2 * 60 + 3 ∧
    parseElapsedToSeconds (mkDHMS 2 1 2 3) = 2 * 86400 + 1 * 3600 + 2 * 60 + 3 ∧
    parseElapsedToSeconds ("xyz") = 0 :=
  ⟨C7_duration_grammar.2.2.2.2.1 1 2 (by omega) (by omega),
   C7_duration_grammar.2.2.2.2.2.1 1 2 3 (by omega) (by omega) (by omega),
   C7_duration_grammar.2.2.2.2.2.2.1 2 1 2 3 (by omega) (by omega) (by omega) (by omega),
   C7_duration_grammar.2.2.2.2.2.2.2 ("xyz") (by decide)⟩

/-! ## C3: Windows rows with absent/empty/unparseable CreationDate -/

/-- C3 counterexample: `ElapsedSeconds` is assigned `int64Ptr(elapsedI64)`
unconditionally, so a row with no CreationDate still carries a populated
`elapsed_seconds` pointer (value 0) — the claim requires the field to be
absent (`none`). `start_time` is indeed empty. -/
theorem C3_elapsed_populated_cex :
    (rowToProcess 1735736400000000 [(("ProcessId" : String), JValue.num ("7"))]).map
      (fun p => (p.startTime, p.elapsedSeconds)) = some (("", some 0)) ∧
    (some (("", some 0)) : Option (String × Option Int)) ≠ some (("", none)) :=
  ⟨rfl, by decide⟩

/-- C3 (amended): for every row whose CreationDate field is absent, empty, or
fails to parse, the produced record has an empty start_time, but
elapsed_seconds is populated with the value 0 (the pointer is always set),
not left absent. -/
theorem C3_unparseable_creation (m : List (String × JValue)) (nowMicro : Int)
    (p : Process) (hp : rowToProcess nowMicro m = some p)
    (hcd : getString m ("CreationDate") = "" ∨
      parseCIMDateTime (getString m ("CreationDate")) = none) :
    p.startTime = "" ∧ p.elapsedSeconds = some 0 := by
  unfold rowToProcess at hp
  by_cases hpid : getInt64 m ("ProcessId") ≤ 0
  · rw [if_pos hpid] at hp
    exact Option.noConfusion hp
  · rw [if_neg hpid] at hp
    have hstart :
        (if getString m ("CreationDate") ≠ "" then
          match parseCIMDateTime (getString m ("CreationDate")) with
          | some t => t
          | none => winZeroTimeMicro
        else winZeroTimeMicro) = winZeroTimeMicro := by
      by_cases hc : getString m ("CreationDate") = ""
      · rw [if_neg (by simp [hc])]
      · rcases hcd with hcd | hcd
        · exact absurd hcd hc
        · rw [if_pos hc, hcd]
    dsimp only at hp
    rw [hstart] at hp
    injection hp with hp
    subst hp
    constructor
    · show utcRFC3339 winZeroTimeMicro = ""
      unfold utcRFC3339
      rw [if_pos rfl]
    · show some (if winZeroTimeMicro ≠ winZeroTimeMicro then _ else 0) = some 0
      rw [if_neg (by simp)]

/-- C3 witness: a concrete row whose CreationDate is present but unparseable
("garbage") produces a record with empty start_time and elapsed_seconds 0. -/
theorem C3_unparseable_creation_witness :
    ((rowToProcess 0 [(("ProcessId" : String), JValue.num ("5")),
        (("CreationDate" : String), JValue.str ("garbage"))]).map
      (fun p => (p.startTime, p.elapsedSeconds))) = some (("", some 0)) := by
  rcases hp : rowToProcess 0 [(("ProcessId" : String), JValue.num ("5")),
      (("CreationDate" : String), JValue.str ("garbage"))] with _ | p
  · have hs : (rowToProcess 0 [(("ProcessId" : String), JValue.num ("5")),
        (("CreationDate" : String), JValue.str ("garbage"))]).isSome = true := rfl
    rw [hp] at hs
    exact Bool.noConfusion hs
  · have h := C3_unparseable_creation _ 0 p hp (Or.inr (by decide))
    simp [h.1, h.2]

/-! ## C5: permissive decode with sanitization fallback -/

/-- C5: if direct decoding succeeds its value is used; if it fails, decoding
is retried exactly once on the sanitized copy (the structure of
`winDecodeOutput` has no further retry), and when that retry also fails the
surfaced error is the original first-decode error; concretely, an output of
one leading non-JSON warning line followed by a line holding a valid JSON
array fails direct decode but decodes successfully via the fallback. -/
theorem C5_sanitize_retry :
    (∀ out v, goDecodeJSON out = .ok v → winDecodeOutput out = .ok v) ∧
    (∀ out e e2, goDecodeJSON out = .error e →
      goDecodeJSON (sanitizeJSON out) = .error e2 → winDecodeOutput out = .error e) ∧
    (∃ e, goDecodeJSON ("WARNING: retrying query\n[\x7b\"ProcessId\": 4\x7d]") =
      .error e) ∧
    winDecodeOutput ("WARNING: retrying query\n[\x7b\"ProcessId\": 4\x7d]") =
      .ok (JValue.arr [JValue.obj [(("ProcessId" : String), JValue.num ("4"))]]) := by
  refine ⟨?_, ?_, ⟨"invalid character looking for beginning of value", by rfl⟩, by rfl⟩
  · intro out v h
    unfold winDecodeOutput
    rw [h]
  · intro out e e2 h1 h2
    unfold winDecodeOutput
    rw [h1, h2]

/-- C5 witness: the two conditional parts of `C5_sanitize_retry` at concrete
outputs — a directly valid array, and an output ("x") that fails both the
direct and the sanitized decode and surfaces the first error. -/
theorem C5_sanitize_retry_witness :
    winDecodeOutput ("[]") = .ok (JValue.arr []) ∧
    winDecodeOutput ("x") =
      .error ("invalid character looking for beginning of value") :=
  ⟨C5_sanitize_retry.1 ("[]") (JValue.arr []) (by rfl),
   C5_sanitize_retry.2.1 ("x") ("invalid character looking for beginning of value")
     ("unexpected end of JSON input") (by rfl) (by rfl)⟩

/-! ## C4: pid positivity and uniqueness -/

theorem rowToProcess_pid {now : Int} {m : List (String × JValue)} {p : Process}
    (h : rowToProcess now m = some p) :
    p.pid = getInt64 m ("ProcessId") ∧ 0 < p.pid := by
  unfold rowToProcess at h
  by_cases hp : getInt64 m ("ProcessId") ≤ 0
  · rw [if_pos hp] at h
    exact Option.noConfusion h
  · rw [if_neg hp] at h
    dsimp only at h
    injection h with h
    subst h
    refine ⟨rfl, ?_⟩
    show (0 : Int) < getInt64 m ("ProcessId")
    omega

theorem readOneProcess_pid {w : LinuxWorld} {pid : Int} {p : Process}
    (h : readOneProcess w pid = .proc p) : p.pid = pid := by
  unfold readOneProcess at h
  dsimp only at h
  rcases hf : w.readFile (("/proc/" ++ pid.repr) ++ ("/stat")) with _ | content
  · rw [hf] at h
    exact ReadOutcome.noConfusion h
  · rw [hf] at h
    dsimp only at h
    rcases hp : parseProcStat content with _ | _ | st
    · rw [hp] at h
      exact ReadOutcome.noConfusion h
    · rw [hp] at h
      exact ReadOutcome.noConfusion h
    · rw [hp] at h
      dsimp only at h
      injection h with h
      subst h
      rfl

theorem winPids_sublist (now : Int) (rows : List (List (String × JValue))) :
    (((rows.filterMap (rowToProcess now)).map (fun p => p.pid)).Sublist
      (rows.map (fun m => getInt64 m ("ProcessId")))) := by
  induction rows with
  | nil => simp
  | cons m rest ih =>
    rcases hm : rowToProcess now m with _ | p
    · rw [List.filterMap_cons_none hm, List.map_cons]
      exact ih.cons _
    · rw [List.filterMap_cons_some hm, List.map_cons, List.map_cons,
        (rowToProcess_pid hm).1]
      exact ih.cons₂ _

theorem entryToProcess_gate (w : LinuxWorld) (e : DirEntry) :
    (entryToProcess w e = none ∧ entryPid e = none) ∨
    (∃ pid, entryPid e = some pid ∧ 0 < pid ∧
      entryToProcess w e = some (readOneProcess w pid)) := by
  unfold entryToProcess entryPid
  by_cases hd : !e.isDir
  · rw [if_pos hd, if_pos hd]
    exact Or.inl ⟨rfl, rfl⟩
  · rw [if_neg hd, if_neg hd]
    rcases goAtoiOk e.name.data with _ | pid
    · exact Or.inl ⟨rfl, rfl⟩
    · dsimp only
      by_cases hp : pid ≤ 0
      · rw [if_pos hp, if_pos hp]
        exact Or.inl ⟨rfl, rfl⟩
      · rw [if_neg hp, if_neg hp]
        exact Or.inr ⟨pid, rfl, by omega, rfl⟩

theorem collectLoop_ok {w : LinuxWorld} : ∀ {es : List DirEntry} {ps : List Process},
    collectLoop w es = .ok ps →
    ((ps.map (fun p => p.pid)).Sublist (es.filterMap entryPid)) ∧ ∀ p ∈ ps, 0 < p.pid := by
  intro es
  induction es with
  | nil =>
    intro ps h
    unfold collectLoop at h
    injection h with h
    subst h
    simp
  | cons e rest ih =>
    intro ps h
    unfold collectLoop at h
    rcases entryToProcess_gate w e with ⟨hnone, hpid⟩ | ⟨pid, hpid, hpos, hsome⟩
    · rw [hnone] at h
      rw [List.filterMap_cons_none hpid]
      exact ih h
    · rw [hsome] at h
      rw [List.filterMap_cons_some hpid]
      rcases hr : readOneProcess w pid with _ | _ | p
      · rw [hr] at h
        exact ⟨(ih h).1.cons _, (ih h).2⟩
      · rw [hr] at h
        exact Except.noConfusion h
      · rw [hr] at h
        rcases hloop : collectLoop w rest with u | ps2
        · rw [hloop] at h
          exact Except.noConfusion h
        · rw [hloop] at h
          dsimp only [Except.map] at h
          injection h with h
          subst h
          rw [List.map_cons, readOneProcess_pid hr]
          refine ⟨(ih hloop).1.cons₂ _, ?_⟩
          intro q hq
          rcases List.mem_cons.mp hq with rfl | hq
          · rw [readOneProcess_pid hr]; exact hpos
          · exact (ih hloop).2 q hq

/-- C4 counterexample: the Darwin collector has no `pid > 0` gate — a `ps`
output line for the macOS kernel task (pid 0) yields a record with pid 0;
and no collector deduplicates: a Windows query response repeating ProcessId
5 yields two records with the same pid in one snapshot. -/
theorem C4_pid_cex :
    (darwinCollectFromOutput
        ("0 0 0 0 root wheel S ?? kernel_task 0:00 0 0 0 31 00:01 kernel_task") 0).map
      (fun p => p.pid) = [0] ∧
    ¬ ((0 : Int) > 0) ∧
    (okRecords (winCollectFromOutput
        ("[\x7b\"ProcessId\": 5\x7d, \x7b\"ProcessId\": 5\x7d]") 0)).map
      (fun p => p.pid) = [5, 5] ∧
    ¬ (([5, 5] : List Int).Nodup) :=
  ⟨by rfl, by decide, by rfl, by decide⟩

/-- C4 (amended): the Windows and Linux collectors only emit records with
pid > 0 (non-positive rows/entries are skipped); the Darwin collector has no
such check.  No collector deduplicates pids: uniqueness holds exactly when
the accepted source pids are themselves distinct, which the Windows and
Linux parts state here (the snapshot's pid list is a sublist of the source's
accepted pid list). -/
theorem C4_pid_invariants :
    (∀ out : String, ∀ now : Int,
      ((okRecords (winCollectFromOutput out now)).all (fun p => 0 < p.pid)) = true) ∧
    (∀ w : LinuxWorld,
      ((linuxOkRecords (collectLinux w)).all (fun p => 0 < p.pid)) = true) ∧
    (∀ rows : List (List (String × JValue)), ∀ now : Int,
      ((rows.map (fun m => getInt64 m ("ProcessId"))).Nodup) →
      (((rows.filterMap (rowToProcess now)).map (fun p => p.pid)).Nodup)) ∧
    (∀ w : LinuxWorld, ∀ entries : List DirEntry, w.readDir = .ok entries →
      ((entries.filterMap entryPid).Nodup) →
      (((linuxOkRecords (collectLinux w)).map (fun p => p.pid)).Nodup)) := by
  refine ⟨?_, ?_, ?_, ?_⟩
  · intro out now
    rw [List.all_eq_true]
    intro p hp
    unfold winCollectFromOutput at hp
    rcases hdec : winDecodeOutput out with e | raw
    · rw [hdec] at hp
      simp [okRecords] at hp
    · rw [hdec] at hp
      dsimp only [okRecords] at hp
      rcases List.mem_filterMap.mp hp with ⟨m, _, hm⟩
      simpa using (rowToProcess_pid hm).2
  · intro w
    rw [List.all_eq_true]
    intro p hp
    unfold collectLinux at hp
    rcases hdir : w.readDir with e | entries
    · rw [hdir] at hp
      simp [linuxOkRecords] at hp
    · rw [hdir] at hp
      dsimp only at hp
      rcases hloop : collectLoop w entries with u | ps
      · rw [hloop] at hp
        simp [linuxOkRecords] at hp
      · rw [hloop] at hp
        dsimp only [linuxOkRecords] at hp
        simpa using (collectLoop_ok hloop).2 p hp
  · intro rows now hnd
    exact hnd.sublist (winPids_sublist now rows)
  · intro w entries hdir hnd
    unfold collectLinux
    rw [hdir]
    dsimp only
    rcases hloop : collectLoop w entries with u | ps
    · simp [linuxOkRecords]
    · dsimp only [linuxOkRecords]
      exact hnd.sublist (collectLoop_ok hloop).1

/-- C4 witness: the pid-uniqueness parts of `C4_pid_invariants` at concrete
inputs — two Windows rows with distinct pids, and a Linux directory listing
with distinct numeric names. -/
theorem C4_pid_invariants_witness :
    ((([[(("ProcessId" : String), JValue.num ("5"))],
        [(("ProcessId" : String), JValue.num ("6"))]].filterMap
          (rowToProcess 0)).map (fun p => p.pid)).Nodup) ∧
    (((linuxOkRecords (collectLinux
        { readDir := .ok [{ name := "7", isDir := true }, { name := "8", isDir := true }]
          readFile := fun _ => none
          readLinkF := fun _ => none
          userDB := fun _ => none
          groupDB := fun _ => none
          sysconfClkTck := some 100
          nowSec := 0 })).map (fun p => p.pid)).Nodup) :=
  ⟨C4_pid_invariants.2.2.1
      [[(("ProcessId" : String), JValue.num ("5"))],
       [(("ProcessId" : String), JValue.num ("6"))]] 0 (by decide),
   C4_pid_invariants.2.2.2
      { readDir := .ok [{ name := "7", isDir := true }, { name := "8", isDir := true }]
        readFile := fun _ => none
        readLinkF := fun _ => none
        userDB := fun _ => none
        groupDB := fun _ => none
        sysconfClkTck := some 100
        nowSec := 0 }
      [{ name := "7", isDir := true }, { name := "8", isDir := true }] rfl (by decide)⟩

/-! ## C6: fatal versus per-process failure on Linux -/

/-- C6: (a) a failing directory listing fails the whole collection with that
error; (b) a process whose stat file is unreadable is silently excluded while
the other processes are returned; but (c) the claim's "structurally
malformed stat → silently excluded" is violated by the code: `readProcStat`
guards `len(fields) < 20` yet reads `fields[21-1]`, so a stat content whose
post-comm part has exactly 20 fields panics (index out of range) and aborts
the entire program instead of being dropped. -/
theorem C6_fatal_vs_perprocess :
    collectLinux
      { readDir := .error ("EACCES")
        readFile := fun _ => none
        readLinkF := fun _ => none
        userDB := fun _ => none
        groupDB := fun _ => none
        sysconfClkTck := some 100
        nowSec := 0 } = .failed ("EACCES") ∧
    collectResultPids (collectLinux
      { readDir := .ok [{ name := "1", isDir := true }, { name := "2", isDir := true }]
        readFile := fun path =>
          if path = "/proc/1/stat" then
            some ("1 (init) S 0 1 1 0 -1 4194560 1 2 3 4 5 6 7 8 20 0 1 0 100 200 300")
          else none
        readLinkF := fun _ => none
        userDB := fun _ => none
        groupDB := fun _ => none
        sysconfClkTck := some 100
        nowSec := 0 }) = some [1] ∧
    collectLinux
      { readDir := .ok [{ name := "1", isDir := true }, { name := "2", isDir := true }]
        readFile := fun path =>
          if path = "/proc/1/stat" then
            some ("1 (init) S 0 1 1 0 -1 4194560 1 2 3 4 5 6 7 8 20 0 1 0 100 200 300")
          else if path = "/proc/2/stat" then
            some ("2 (x) R 1 2 3 4 5 6 7 8 9 10 11 12 13 14 15 16 17 18 19")
          else none
        readLinkF := fun _ => none
        userDB := fun _ => none
        groupDB := fun _ => none
        sysconfClkTck := some 100
        nowSec := 0 } = .panicked :=
  ⟨by rfl, by rfl, by rfl⟩

/-! ## C10: record produced from the stat file alone -/

/-- C10 counterexample: when the status file is unreadable the uid/gid fall
back to 0, but the user field is then the identity-database resolution of id
0 — on a system whose database maps 0 to "root" the field is "root", not the
claimed fallback string "0". -/
theorem C10_user_resolved_cex :
    outcomeUser (readOneProcess
      { readDir := .ok []
        readFile := fun path =>
          if path = "/proc/1/stat" then
            some ("1 (init) S 0 1 1 0 -1 4194560 1 2 3 4 5 6 7 8 20 0 1 0 100 200 300")
          else none
        readLinkF := fun _ => none
        userDB := fun n => if n = 0 then some ("root") else none
        groupDB := fun _ => none
        sysconfClkTck := some 100
        nowSec := 0 } 1) = some ("root") ∧
    (some ("root") : Option String) ≠ some ("0") :=
  ⟨by rfl, by decide⟩

/-- C10 (amended): only the stat file is structurally required — if it
parses while the status file is unreadable, `readOneProcess` still returns a
record with uid = gid = 0, the user/group names resolved for id 0 (which is
the decimal fallback "0" exactly when the identity lookup fails), and all
three memory figures 0. -/
theorem C10_status_unreadable (w : LinuxWorld) (pid : Int) (content : String)
    (st : ProcStat)
    (hstat : w.readFile (("/proc/" ++ pid.repr) ++ ("/stat")) = some content)
    (hparse : parseProcStat content = .parsed st)
    (hstatus : w.readFile (("/proc/" ++ pid.repr) ++ ("/status")) = none) :
    ∃ p, readOneProcess w pid = .proc p ∧
      p.uid = 0 ∧ p.gid = 0 ∧
      p.user = lookupUserName w.userDB 0 ∧ p.group = lookupGroupName w.groupDB 0 ∧
      (w.userDB 0 = none → p.user = "0") ∧ (w.groupDB 0 = none → p.group = "0") ∧
      p.memRSSBytes = 0 ∧ p.memVMSBytes = 0 ∧ p.memSwapBytes = 0 := by
  have hsg : ∀ key, statusGet w (("/proc/" ++ pid.repr) ++ ("/status")) key = "" := by
    intro key
    unfold statusGet
    rw [hstatus]
  unfold readOneProcess
  dsimp only
  rw [hstat]
  dsimp only
  rw [hparse]
  dsimp only
  refine ⟨_, rfl, ?_, ?_, ?_, ?_, ?_, ?_, ?_, ?_, ?_⟩
  · show parseFirstUint (statusGet w (("/proc/" ++ pid.repr) ++ ("/status")) ("Uid")) = 0
    rw [hsg]
    rfl
  · show parseFirstUint (statusGet w (("/proc/" ++ pid.repr) ++ ("/status")) ("Gid")) = 0
    rw [hsg]
    rfl
  · show lookupUserName w.userDB
      (parseFirstUint (statusGet w (("/proc/" ++ pid.repr) ++ ("/status")) ("Uid"))) =
      lookupUserName w.userDB 0
    rw [hsg, show parseFirstUint ("") = 0 from rfl]
  · show lookupGroupName w.groupDB
      (parseFirstUint (statusGet w (("/proc/" ++ pid.repr) ++ ("/status")) ("Gid"))) =
      lookupGroupName w.groupDB 0
    rw [hsg, show parseFirstUint ("") = 0 from rfl]
  · intro hdb
    show lookupUserName w.userDB
      (parseFirstUint (statusGet w (("/proc/" ++ pid.repr) ++ ("/status")) ("Uid"))) = "0"
    rw [hsg, show parseFirstUint ("") = 0 from rfl]
    unfold lookupUserName
    rw [hdb]
    rfl
  · intro hdb
    show lookupGroupName w.groupDB
      (parseFirstUint (statusGet w (("/proc/" ++ pid.repr) ++ ("/status")) ("Gid"))) = "0"
    rw [hsg, show parseFirstUint ("") = 0 from rfl]
    unfold lookupGroupName
    rw [hdb]
    rfl
  · show wrap64 (parseKB (statusGet w (("/proc/" ++ pid.repr) ++ ("/status")) ("VmRSS")) *
      1024) = 0
    rw [hsg]
    rfl
  · show wrap64 (parseKB (statusGet w (("/proc/" ++ pid.repr) ++ ("/status")) ("VmSize")) *
      1024) = 0
    rw [hsg]
    rfl
  · show wrap64 (parseKB (statusGet w (("/proc/" ++ pid.repr) ++ ("/status")) ("VmSwap")) *
      1024) = 0
    rw [hsg]
    rfl

/-- C10 witness: `C10_status_unreadable` at a concrete world whose identity
databases are empty — the record exists with uid 0 and user "0". -/
theorem C10_status_unreadable_witness :
    ∃ p, readOneProcess
      { readDir := .ok []
        readFile := fun path =>
          if path = "/proc/1/stat" then
            some ("1 (init) S 0 1 1 0 -1 4194560 1 2 3 4 5 6 7 8 20 0 1 0 100 200 300")
          else none
        readLinkF := fun _ => none
        userDB := fun _ => none
        groupDB := fun _ => none
        sysconfClkTck := some 100
        nowSec := 0 } 1 = .proc p ∧
      p.uid = 0 ∧ p.gid = 0 ∧
      p.user = lookupUserName (fun _ => none) 0 ∧
      p.group = lookupGroupName (fun _ => none) 0 ∧
      ((fun (_ : Nat) => (none : Option String)) 0 = none → p.user = "0") ∧
      ((fun (_ : Nat) => (none : Option String)) 0 = none → p.group = "0") ∧
      p.memRSSBytes = 0 ∧ p.memVMSBytes = 0 ∧ p.memSwapBytes = 0 :=
  C10_status_unreadable _ 1 _
    { ppid := 0, state := "S", comm := "init", utime := 6, stime := 7,
      starttime := 200, priority := 0, nice := 1, numThreads := 0, ttyNr := -1 }
    (by rfl)
    (by rfl)
    (by rfl)

/-! ## C8: cgroup parsing and container-id extraction -/

theorem orFirst_none {α : Type} (a : Option α) : orFirst a none = a := by
  cases a <;> rfl

theorem findHexToken_spec : ∀ {seg t : List Char}, findHexToken seg = some t →
    12 ≤ t.length ∧ t.length ≤ 64 ∧ t.all isHexIDChar = true := by
  intro seg
  induction seg with
  | nil => intro t h; exact Option.noConfusion h
  | cons c rest ih =>
    intro t h
    unfold findHexToken at h
    dsimp only at h
    by_cases hr : 12 ≤ ((c :: rest).takeWhile isHexIDChar).length
    · rw [if_pos hr] at h
      injection h with h
      subst h
      refine ⟨by rw [List.length_take]; omega, by rw [List.length_take]; omega, ?_⟩
      rw [List.all_eq_true]
      intro x hx
      exact List.mem_takeWhile_imp ((List.take_sublist _ _).mem hx)
    · rw [if_neg hr] at h
      exact ih h

theorem cgBestFold_spec (segs : List (List Char)) : ∀ best : List Char,
    (segs.foldl cgBestStep best = best ∨
      ∃ seg ∈ segs, findHexToken seg = some (segs.foldl cgBestStep best)) ∧
    best.length ≤ (segs.foldl cgBestStep best).length ∧
    (∀ seg ∈ segs, ∀ m, findHexToken seg = some m →
      m.length ≤ (segs.foldl cgBestStep best).length) := by
  induction segs with
  | nil =>
    intro best
    refine ⟨Or.inl rfl, le_refl _, ?_⟩
    intro seg hs
    simp at hs
  | cons s ss ih =>
    intro best
    rw [List.foldl_cons]
    obtain ⟨ho, hl, hm⟩ := ih (cgBestStep best s)
    have hstep : (cgBestStep best s = best ∨ findHexToken s = some (cgBestStep best s)) ∧
        best.length ≤ (cgBestStep best s).length ∧
        (∀ m, findHexToken s = some m → m.length ≤ (cgBestStep best s).length) := by
      unfold cgBestStep
      rcases hf : findHexToken s with _ | m
      all_goals dsimp only
      · refine ⟨Or.inl rfl, le_refl _, ?_⟩
        intro m hm2
        exact Option.noConfusion hm2
      · by_cases hlt : best.length < m.length
        · rw [if_pos hlt]
          refine ⟨Or.inr rfl, by omega, ?_⟩
          intro m2 hm2
          injection hm2 with e
          subst e
          omega
        · rw [if_neg hlt]
          refine ⟨Or.inl rfl, le_refl _, ?_⟩
          intro m2 hm2
          injection hm2 with e
          subst e
          omega
    refine ⟨?_, le_trans hstep.2.1 hl, ?_⟩
    · rcases ho with ho | ⟨seg, hseg, hfind⟩
      · rw [ho]
        rcases hstep.1 with h1 | h1
        · exact Or.inl h1
        · exact Or.inr ⟨s, by simp, h1⟩
      · exact Or.inr ⟨seg, List.mem_cons_of_mem _ hseg, hfind⟩
    · intro seg hsg m hm2
      rcases List.mem_cons.mp hsg with rfl | hsg
      · exact le_trans (hstep.2.2 m hm2) hl
      · exact hm seg hsg m hm2

theorem extractContainerID_spec (path : String) :
    extractContainerID path = "" ∨
    (12 ≤ (extractContainerID path).length ∧ (extractContainerID path).length ≤ 64 ∧
      ((extractContainerID path).data.all isHexIDChar) = true) := by
  obtain ⟨ho, _, _⟩ := cgBestFold_spec (goSplitChar '/' path.data) []
  rcases ho with ho | ⟨seg, hseg, hfind⟩
  · left
    show (⟨(goSplitChar '/' path.data).foldl cgBestStep []⟩ : String) = ""
    rw [ho]
  · right
    obtain ⟨h1, h2, h3⟩ := findHexToken_spec hfind
    exact ⟨h1, h2, h3⟩

theorem cgLineStep_fold (lines : List (List Char)) :
    ∀ acc : List String × Option String × Option String,
    lines.foldl cgLineStep acc =
      (acc.1 ++ lines.filterMap cgLinePath,
       orFirst acc.2.1 (firstNonemptyPath (lines.filterMap cgLinePath)),
       orFirst acc.2.2 (lines.findSome? cgLineCid)) := by
  induction lines with
  | nil =>
    intro acc
    rw [List.foldl_nil, List.filterMap_nil, List.findSome?_nil, List.append_nil,
      show firstNonemptyPath [] = none from rfl, orFirst_none, orFirst_none]
  | cons line ls ih =>
    intro acc
    rcases acc with ⟨all, prim, cid⟩
    rw [List.foldl_cons]
    rcases hsp : goSplitNChar ':' 3 line with _ | ⟨a, _ | ⟨b, _ | ⟨c, _ | ⟨d, tl⟩⟩⟩⟩
    case nil =>
      have hpath : cgLinePath line = none := by unfold cgLinePath; rw [hsp]
      have hcid0 : cgLineCid line = none := by unfold cgLineCid; rw [hsp]
      have hstep : cgLineStep (all, prim, cid) line = (all, prim, cid) := by
        unfold cgLineStep; rw [hsp]
      rw [hstep, ih, List.filterMap_cons_none hpath, List.findSome?_cons, hcid0]
    case cons.nil =>
      have hpath : cgLinePath line = none := by unfold cgLinePath; rw [hsp]
      have hcid0 : cgLineCid line = none := by unfold cgLineCid; rw [hsp]
      have hstep : cgLineStep (all, prim, cid) line = (all, prim, cid) := by
        unfold cgLineStep; rw [hsp]
      rw [hstep, ih, List.filterMap_cons_none hpath, List.findSome?_cons, hcid0]
    case cons.cons.nil =>
      have hpath : cgLinePath line = none := by unfold cgLinePath; rw [hsp]
      have hcid0 : cgLineCid line = none := by unfold cgLineCid; rw [hsp]
      have hstep : cgLineStep (all, prim, cid) line = (all, prim, cid) := by
        unfold cgLineStep; rw [hsp]
      rw [hstep, ih, List.filterMap_cons_none hpath, List.findSome?_cons, hcid0]
    case cons.cons.cons.cons =>
      have hpath : cgLinePath line = none := by unfold cgLinePath; rw [hsp]
      have hcid0 : cgLineCid line = none := by unfold cgLineCid; rw [hsp]
      have hstep : cgLineStep (all, prim, cid) line = (all, prim, cid) := by
        unfold cgLineStep; rw [hsp]
      rw [hstep, ih, List.filterMap_cons_none hpath, List.findSome?_cons, hcid0]
    case cons.cons.cons.nil =>
      have hpath : cgLinePath line = some ((⟨c⟩ : String)) := by
        unfold cgLinePath; rw [hsp]
      have hcid1 : cgLineCid line =
          (if extractContainerID ((⟨c⟩ : String)) ≠ "" then
            some (extractContainerID ((⟨c⟩ : String))) else none) := by
        unfold cgLineCid; rw [hsp]
      have hstep : cgLineStep (all, prim, cid) line =
          (all ++ [(⟨c⟩ : String)],
           (match prim with
            | some p => some p
            | none => if ((⟨c⟩ : String)) ≠ "" then some ((⟨c⟩ : String)) else none),
           (match cid with
            | some x => some x
            | none =>
              if extractContainerID ((⟨c⟩ : String)) ≠ "" then
                some (extractContainerID ((⟨c⟩ : String))) else none)) := by
        unfold cgLineStep; rw [hsp]
      rw [hstep, ih, List.filterMap_cons_some hpath, List.findSome?_cons, hcid1]
      simp only [Prod.mk.injEq]
      refine ⟨by simp, ?_, ?_⟩
      · cases prim with
        | some q => rfl
        | none =>
          by_cases hc : ((⟨c⟩ : String)) = ""
          · rw [if_neg (by simp [hc])]
            unfold firstNonemptyPath
            rw [List.find?_cons]
            rw [show (decide (((⟨c⟩ : String)) ≠ "")) = false by simp [hc]]
          · rw [if_pos hc]
            unfold firstNonemptyPath
            rw [List.find?_cons]
            rw [show (decide (((⟨c⟩ : String)) ≠ "")) = true by simp [hc]]
            rfl
      · cases cid with
        | some x => rfl
        | none =>
          by_cases hq : extractContainerID ((⟨c⟩ : String)) = ""
          · rw [if_neg (by simp [hq])]
          · rw [if_pos hq]
            rfl

theorem readCgroups_spec (content : String) :
    readCgroups (some content) =
      (if cgroupPaths content = [] then none else firstNonemptyPath (cgroupPaths content),
       if cgroupPaths content = [] then none else some (cgroupPaths content),
       cgroupCid content) := by
  unfold readCgroups
  dsimp only
  rw [cgLineStep_fold]
  dsimp only
  by_cases hp : cgroupPaths content = []
  · have hp' : (goScanLines content.data).filterMap cgLinePath = [] := hp
    rw [hp', hp]
    rfl
  · have hp' : ¬ ((([] : List String) ++
        (goScanLines content.data).filterMap cgLinePath).isEmpty = true) := by
      simp only [List.nil_append, List.isEmpty_iff]
      exact hp
    rw [if_neg hp', if_neg hp, if_neg hp]
    rfl

/-- C8: the cgroup parser collects the path component of every
`id:controller-list:path` line (those with at least two colons), designates
the first non-empty path as primary, and retains as container id the first
line's extracted hexadecimal token; an extracted token is always 12–64
characters of `[a-fA-F0-9]`, and within a path the longest per-segment match
wins (every segment match is no longer than the retained one). -/
theorem C8_cgroup_extraction :
    (∀ content : String,
      readCgroups (some content) =
        (if cgroupPaths content = [] then none
         else firstNonemptyPath (cgroupPaths content),
         if cgroupPaths content = [] then none else some (cgroupPaths content),
         cgroupCid content)) ∧
    (∀ content idv : String,
      (readCgroups (some content)).2.2 = some idv →
      12 ≤ idv.length ∧ idv.length ≤ 64 ∧ (idv.data.all isHexIDChar) = true) ∧
    (∀ path : String, ∀ seg ∈ goSplitChar '/' path.data, ∀ m,
      findHexToken seg = some m → m.length ≤ (extractContainerID path).length) := by
  refine ⟨readCgroups_spec, ?_, ?_⟩
  · intro content idv h
    rw [readCgroups_spec content] at h
    dsimp only at h
    unfold cgroupCid at h
    obtain ⟨line, hline, hcl⟩ := List.exists_of_findSome?_eq_some h
    unfold cgLineCid at hcl
    rcases hsp : goSplitNChar ':' 3 line with _ | ⟨a, _ | ⟨b, _ | ⟨cc, _ | ⟨d, tl⟩⟩⟩⟩
    all_goals rw [hsp] at hcl
    · exact Option.noConfusion hcl
    · exact Option.noConfusion hcl
    · exact Option.noConfusion hcl
    · dsimp only at hcl
      by_cases hq : extractContainerID ((⟨cc⟩ : String)) = ""
      · rw [if_neg (by simp [hq])] at hcl
        exact Option.noConfusion hcl
      · rw [if_pos hq] at hcl
        injection hcl with e
        subst e
        rcases extractContainerID_spec ((⟨cc⟩ : String)) with h0 | hprops
        · exact absurd h0 hq
        · exact hprops
    · exact Option.noConfusion hcl
  · intro path
    exact (cgBestFold_spec (goSplitChar '/' path.data) []).2.2

/-- C8 witness: the container-id parts of `C8_cgroup_extraction` at a
concrete cgroup file with one docker-style hex segment. -/
theorem C8_cgroup_extraction_witness :
    (12 ≤ ("aabbccddeeff001122" : String).length ∧
      ("aabbccddeeff001122" : String).length ≤ 64 ∧
      ((("aabbccddeeff001122" : String).data.all isHexIDChar) = true)) ∧
    (("aabbccddeeff001122" : String).data.length ≤
      (extractContainerID ("/docker/aabbccddeeff001122")).length) :=
  ⟨C8_cgroup_extraction.2.1 ("5:cpu,cpuacct:/docker/aabbccddeeff001122")
      ("aabbccddeeff001122") (by rfl),
   C8_cgroup_extraction.2.2 ("/docker/aabbccddeeff001122")
      (("aabbccddeeff001122" : String).data) (by decide)
      (("aabbccddeeff001122" : String).data) (by rfl)⟩

/-! ## C1: DMTF CIM date-time parsing -/

@[simp] theorem isDigitChar_plus : isDigitChar '+' = false := rfl

@[simp] theorem isDigitChar_minus : isDigitChar '-' = false := rfl

theorem digitsVal_three (x : Nat) (h : x < 1000) :
    digitsVal [dchar (x / 100), dchar (x / 10), dchar x] = x := by
  simp only [digitsVal, List.foldl, dchar_toNat]
  omega

theorem digitsVal_four (x : Nat) (h : x < 10000) :
    digitsVal [dchar (x / 1000), dchar (x / 100), dchar (x / 10), dchar x] = x := by
  simp only [digitsVal, List.foldl, dchar_toNat]
  omega

theorem digitsVal_six (x : Nat) (h : x < 1000000) :
    digitsVal [dchar (x / 100000), dchar (x / 10000), dchar (x / 1000),
      dchar (x / 100), dchar (x / 10), dchar x] = x := by
  simp only [digitsVal, List.foldl, dchar_toNat]
  omega

theorem goParseInt64_quad (x : Nat) (hx : x < 10000) :
    goParseInt64 [dchar (x / 1000), dchar (x / 100), dchar (x / 10), dchar x] = (x : Int) := by
  have hall : ∀ c ∈ [dchar (x / 1000), dchar (x / 100), dchar (x / 10), dchar x],
      isDigitChar c = true := by
    intro c hc
    simp only [List.mem_cons, List.not_mem_nil, or_false] at hc
    rcases hc with rfl | rfl | rfl | rfl <;> simp
  have hv := digitsVal_four x hx
  rw [goParseInt64_digits (by simp) hall (by rw [hv]; unfold int64MaxI; omega), hv]

theorem goParseInt64Ok_tri (x : Nat) (hx : x < 1000) :
    goParseInt64Ok [dchar (x / 100), dchar (x / 10), dchar x] = some ((x : Nat) : Int) := by
  have hall : ∀ c ∈ [dchar (x / 100), dchar (x / 10), dchar x], isDigitChar c = true := by
    intro c hc
    simp only [List.mem_cons, List.not_mem_nil, or_false] at hc
    rcases hc with rfl | rfl | rfl <;> simp
  have hv := digitsVal_three x hx
  rw [goParseInt64Ok_digits (by simp) hall (by rw [hv]; unfold int64MaxI; omega), hv]

theorem toDigitsCore_length_lb : ∀ (k fuel n : Nat) (ds : List Char),
    10 ^ k ≤ n → n < fuel → k + 1 + ds.length ≤ (Nat.toDigitsCore 10 fuel n ds).length := by
  intro k
  induction k with
  | zero =>
    intro fuel n ds hk hf
    match fuel with
    | 0 => omega
    | f + 1 =>
      unfold Nat.toDigitsCore
      dsimp only
      split
      · simp
        omega
      · have := toDigitsCore_length_ge f (n / 10) (Nat.digitChar (n % 10) :: ds)
        simp at this
        omega
  | succ k ih =>
    intro fuel n ds hk hf
    match fuel with
    | 0 => omega
    | f + 1 =>
      have h10 : 10 ≤ n := by
        have hpk : 1 ≤ 10 ^ k := Nat.one_le_pow _ _ (by omega)
        have : 10 * 1 ≤ 10 * 10 ^ k := by omega
        calc 10 = 10 * 1 := by omega
        _ ≤ 10 * 10 ^ k := this
        _ = 10 ^ (k + 1) := by ring
        _ ≤ n := hk
      have hdiv : 10 ^ k ≤ n / 10 := by
        rw [Nat.le_div_iff_mul_le (by omega)]
        calc 10 ^ k * 10 = 10 ^ (k + 1) := by ring
        _ ≤ n := hk
      have hne : ¬ (n / 10 = 0) := by
        intro h0
        have := Nat.div_mul_le_self n 10
        omega
      unfold Nat.toDigitsCore
      dsimp only
      rw [if_neg hne]
      have hrec := ih f (n / 10) (Nat.digitChar (n % 10) :: ds) hdiv (by omega)
      simp at hrec
      omega

theorem goPadUsec_id {frac : Nat} (h1 : 100000 ≤ frac) : goPadUsec frac = frac := by
  unfold goPadUsec
  rw [if_neg ?_]
  show ¬ ((Nat.repr frac).length < 6)
  have := toDigitsCore_length_lb 5 (frac + 1) frac [] (by omega) (by omega)
  show ¬ ((Nat.toDigits 10 frac).asString.length < 6)
  unfold Nat.toDigits
  simp only [List.asString]
  change ¬ ((Nat.toDigitsCore 10 (frac + 1) frac []).length < 6)
  simp at this
  omega

theorem mkCIM_chars (y mo d h mi se frac off : Nat) (neg : Bool) :
    ∀ c ∈ (mkCIM y mo d h mi se frac off neg).data, goIsSpace c = false ∧ c ≠ 'T' := by
  intro c hc
  have hdata : (mkCIM y mo d h mi se frac off neg).data =
      [dchar (y / 1000), dchar (y / 100), dchar (y / 10), dchar y,
       dchar (mo / 10), dchar mo, dchar (d / 10), dchar d,
       dchar (h / 10), dchar h, dchar (mi / 10), dchar mi,
       dchar (se / 10), dchar se, '.',
       dchar (frac / 100000), dchar (frac / 10000), dchar (frac / 1000),
       dchar (frac / 100), dchar (frac / 10), dchar frac,
       if neg then '-' else '+',
       dchar (off / 100), dchar (off / 10), dchar off] := rfl
  rw [hdata] at hc
  simp only [List.mem_cons, List.not_mem_nil, or_false] at hc
  rcases hc with rfl | rfl | rfl | rfl | rfl | rfl | rfl | rfl | rfl | rfl | rfl | rfl |
    rfl | rfl | rfl | rfl | rfl | rfl | rfl | rfl | rfl | rfl | rfl | rfl | rfl
  all_goals first
    | exact ⟨dchar_isSpace _, dchar_ne_tee _⟩
    | exact ⟨by decide, by decide⟩
    | (cases neg <;> exact ⟨by decide, by decide⟩)

theorem parseCIM_short (s : String)
    (h : (((goTrimSpace s.data).filter (fun c => decide (c ≠ 'T'))).length) < 14) :
    parseCIMDateTime s = none := by
  unfold parseCIMDateTime
  dsimp only
  by_cases he : (goTrimSpace s.data).isEmpty = true
  · rw [if_pos he]
  · rw [if_neg he, if_pos h]

/-- C1 counterexample: (i) the zone is built as `FixedZone("", -offsetMin*60)`,
so the parsed instant is the local time *plus* the stated offset —
"20250101120000.000000+060" (local noon at UTC+1, denoting 11:00 UTC) parses
to 13:00 UTC; (ii) the fractional padding loop multiplies by the decimal
length of the accumulated value, so a 6-digit fraction with a leading zero
(".012345", i.e. 12,345 µs) is inflated tenfold to 123,450 µs; (iii) the
14-character check runs on the whole T-stripped string, not its digit
prefix — "0000000000000a" has a 13-digit prefix yet parses with ok=true. -/
theorem C1_cim_cex :
    parseCIMDateTime ("20250101120000.000000+060") = some 1735736400000000 ∧
    dmtfInstantMicro 2025 1 1 12 0 0 0 60 = 1735729200000000 ∧
    (1735736400000000 : Int) ≠ 1735729200000000 ∧
    parseCIMDateTime ("20250101120000.012345+000") = some 1735732800123450 ∧
    dmtfInstantMicro 2025 1 1 12 0 0 12345 0 = 1735732800012345 ∧
    (1735732800123450 : Int) ≠ 1735732800012345 ∧
    (parseCIMDateTime ("0000000000000a")).isSome = true :=
  ⟨by decide, by decide, by decide, by decide, by decide, by decide, by decide⟩

theorem parseCIM_mkCIM (y mo d h mi se frac off : Nat) (neg : Bool)
    (hy : y < 10000) (hmo : mo < 100) (hd : d < 100) (hh : h < 100)
    (hmi : mi < 100) (hse : se < 100) (hfrac : frac < 1000000) (hoff : off < 1000) :
    parseCIMDateTime (mkCIM y mo d h mi se frac off neg) =
      some (codeCIMInstantMicro y mo d h mi se (goPadUsec frac) (cimSigned neg off)) := by
  have hchars := mkCIM_chars y mo d h mi se frac off neg
  have htrim : goTrimSpace (mkCIM y mo d h mi se frac off neg).data =
      (mkCIM y mo d h mi se frac off neg).data :=
    goTrimSpace_eq_self (fun c hc => (hchars c hc).1)
  have hfilter : ((mkCIM y mo d h mi se frac off neg).data).filter
      (fun c => decide (c ≠ 'T')) = (mkCIM y mo d h mi se frac off neg).data :=
    List.filter_eq_self.mpr (fun c hc => by simpa using (hchars c hc).2)
  unfold parseCIMDateTime
  dsimp only
  rw [htrim, hfilter]
  cases neg
  case false =>
    have hdata : (mkCIM y mo d h mi se frac off false).data =
        [dchar (y / 1000), dchar (y / 100), dchar (y / 10), dchar y,
         dchar (mo / 10), dchar mo, dchar (d / 10), dchar d,
         dchar (h / 10), dchar h, dchar (mi / 10), dchar mi,
         dchar (se / 10), dchar se, '.',
         dchar (frac / 100000), dchar (frac / 10000), dchar (frac / 1000),
         dchar (frac / 100), dchar (frac / 10), dchar frac, '+',
         dchar (off / 100), dchar (off / 10), dchar off] := rfl
    rw [hdata]
    simp [List.takeWhile_cons_of_pos, List.takeWhile_cons_of_neg, List.take_succ_cons,
      List.drop_succ_cons]
    rw [goParseInt64_quad y hy, goParseInt64_dduo mo hmo, goParseInt64_dduo d hd,
      goParseInt64_dduo h hh, goParseInt64_dduo mi hmi, goParseInt64_dduo se hse,
      digitsVal_six frac hfrac,
      show goAtoiOk [dchar (off / 100), dchar (off / 10), dchar off] =
        goParseInt64Ok [dchar (off / 100), dchar (off / 10), dchar off] from rfl,
      goParseInt64Ok_tri off hoff]
    unfold goDateUTCMicro codeCIMInstantMicro cimSigned
    simp only [Bool.false_eq_true, if_false]
    omega
  case true =>
    have hdata : (mkCIM y mo d h mi se frac off true).data =
        [dchar (y / 1000), dchar (y / 100), dchar (y / 10), dchar y,
         dchar (mo / 10), dchar mo, dchar (d / 10), dchar d,
         dchar (h / 10), dchar h, dchar (mi / 10), dchar mi,
         dchar (se / 10), dchar se, '.',
         dchar (frac / 100000), dchar (frac / 10000), dchar (frac / 1000),
         dchar (frac / 100), dchar (frac / 10), dchar frac, '-',
         dchar (off / 100), dchar (off / 10), dchar off] := rfl
    rw [hdata]
    simp [List.takeWhile_cons_of_pos, List.takeWhile_cons_of_neg, List.take_succ_cons,
      List.drop_succ_cons]
    rw [goParseInt64_quad y hy, goParseInt64_dduo mo hmo, goParseInt64_dduo d hd,
      goParseInt64_dduo h hh, goParseInt64_dduo mi hmi, goParseInt64_dduo se hse,
      digitsVal_six frac hfrac,
      show goAtoiOk [dchar (off / 100), dchar (off / 10), dchar off] =
        goParseInt64Ok [dchar (off / 100), dchar (off / 10), dchar off] from rfl,
      goParseInt64Ok_tri off hoff]
    unfold goDateUTCMicro codeCIMInstantMicro cimSigned
    simp only [eq_self_iff_true, if_true]
    omega

/-- C1 (amended): a DMTF compact date-time with full 14-digit prefix, 6-digit
fractional part and explicit signed 3-digit offset parses with ok=true, but
the resulting instant is the local wall time *plus* the stated offset (the
zone is constructed with the offset negated, inverting the DMTF convention),
and the fractional digits are scaled by the padding rule `goPadUsec`, which
equals microsecond precision exactly for fractions without a leading zero
(second part); a string with fewer than 14 characters after trimming and
removing 'T' characters is rejected (the check is on the string length, not
the digit-prefix length). -/
theorem C1_cim_parsing :
    (∀ y mo d h mi se frac off : Nat, ∀ neg : Bool,
      y < 10000 → mo < 100 → d < 100 → h < 100 → mi < 100 → se < 100 →
      frac < 1000000 → off < 1000 →
      parseCIMDateTime (mkCIM y mo d h mi se frac off neg) =
        some (codeCIMInstantMicro y mo d h mi se (goPadUsec frac) (cimSigned neg off))) ∧
    (∀ frac : Nat, 100000 ≤ frac → goPadUsec frac = frac) ∧
    (∀ s : String,
      (((goTrimSpace s.data).filter (fun c => decide (c ≠ 'T'))).length) < 14 →
      parseCIMDateTime s = none) :=
  ⟨fun y mo d h mi se frac off neg hy hmo hd hh hmi hse hfrac hoff =>
      parseCIM_mkCIM y mo d h mi se frac off neg hy hmo hd hh hmi hse hfrac hoff,
   fun _ h1 => goPadUsec_id h1,
   parseCIM_short⟩

/-- C1 witness: `C1_cim_parsing` at "20250615103045.123456-090" (built by
`mkCIM`), at the fraction 123456, and at the too-short input "abc". -/
theorem C1_cim_parsing_witness :
    parseCIMDateTime (mkCIM 2025 6 15 10 30 45 123456 90 true) =
      some (codeCIMInstantMicro 2025 6 15 10 30 45 (goPadUsec 123456) (cimSigned true 90)) ∧
    goPadUsec 123456 = 123456 ∧
    parseCIMDateTime ("abc") = none :=
  ⟨C1_cim_parsing.1 2025 6 15 10 30 45 123456 90 true (by omega) (by omega) (by omega)
      (by omega) (by omega) (by omega) (by omega) (by omega),
   C1_cim_parsing.2.1 123456 (by omega),
   C1_cim_parsing.2.2 ("abc") (by decide)⟩

end Jout
